import Mathlib

/-!
# A shallow embedding of the zenoh declaration codec and the accept-side
# `InitSyn` handshake stage

This file embeds, over `List Nat` byte streams, the `Declare` network-message
codec family (`src/commons/zenoh-codec/src/network/declare.rs`) and the
accept-side `InitSyn` receive step
(`src/io/zenoh-transport/src/unicast/establishment/accept/init_syn.rs`),
and proves the spec's testable properties about them.

Rust `Result<T, DidntRead>` (the codec's single error type, covering both
format errors and truncation) is embedded as `Option`; writers return the
emitted byte list; readers take a byte list and return the decoded value
together with the unconsumed rest of the stream.

Leaf codecs that belong to this repository but are not among the shown
sources (the variable-length integer codec, the wire-expression codec, the
generic extension skip mechanism, the protocol constants) are modelled from
the spec's description of them; each such definition says so in its doc
comment.
-/

namespace Zenoh

/-! ## Header bit layout (`imsg`) -/

/-- Modelled from the spec: the header's low-order bits are the
message-type identifier (§3, §6); the family uses 5 id bits. -/
def imsg.mid (header : Nat) : Nat := header &&& 0x1f

/-- Modelled from the spec: the bits above the message id are flags. -/
def imsg.flags (header : Nat) : Nat := header &&& 0xe0

/-- Modelled from the spec: test one flag bit of a header byte. -/
def imsg.hasFlag (byte flag : Nat) : Bool := byte &&& flag != 0

/-! ## Message-kind identifiers and flag bits

Modelled from the spec (§3, §6): ids are unique per family; flag `N` is
the wire-expression-suffix bit, `M` the mapping bit, `Z` the
extensions-follow bit. -/

/-- Modelled from the spec: declaration-family message ids. -/
def declare.id.D_KEYEXPR : Nat := 0x00

def declare.id.U_KEYEXPR : Nat := 0x01

def declare.id.D_SUBSCRIBER : Nat := 0x02

def declare.id.U_SUBSCRIBER : Nat := 0x03

def declare.id.D_QUERYABLE : Nat := 0x04

def declare.id.U_QUERYABLE : Nat := 0x05

def declare.id.D_TOKEN : Nat := 0x06

def declare.id.U_TOKEN : Nat := 0x07

/-- Modelled from the spec: the wrapping declare-envelope message id. -/
def id.DECLARE : Nat := 0x19

/-- Modelled from the spec: flag `N` (wire expression carries a suffix). -/
def flag.N : Nat := 0x20

/-- Modelled from the spec: flag `M` (mapping was assigned by the sender). -/
def flag.M : Nat := 0x40

/-- Modelled from the spec: flag `Z` (one or more extensions follow). -/
def flag.Z : Nat := 0x80

/-! ## Extension header bit layout (`iext`)

Modelled from the spec (§3, §4.1): an extension header byte carries the
extension's own identifier, an encoding shape, a mandatory-to-understand
bit and a continuation bit. -/

/-- Modelled from the spec: mandatory-to-understand bit of an extension
header. -/
def iext.FLAG_M : Nat := 0x10

/-- Modelled from the spec: continuation bit of an extension header. -/
def iext.FLAG_Z : Nat := 0x80

/-- Modelled from the spec: encoding-shape value for a unit (payload-free)
extension. -/
def iext.ENC_UNIT : Nat := 0x00

/-- Modelled from the spec: encoding-shape value for a numeric (`Z64`)
extension. -/
def iext.ENC_Z64 : Nat := 0x20

/-- Modelled from the spec: encoding-shape value for a length-prefixed
buffer (`ZBuf`) extension. -/
def iext.ENC_ZBUF : Nat := 0x40

/-- Modelled from the spec: mask of the encoding-shape bits. -/
def iext.ENC_MASK : Nat := 0x60

/-- Modelled from the spec: the extension identifier matched by decoders
is everything in the extension header except the continuation bit. -/
def iext.eid (ext : Nat) : Nat := ext &&& 0x7f

/-- Modelled from the spec: an extension is mandatory-to-understand when
the dedicated bit of its own header is set. -/
def iext.isMandatory (ext : Nat) : Bool := imsg.hasFlag ext iext.FLAG_M

/-- Modelled from the spec: the declare envelope's QoS extension id
(numeric extension). -/
def declare.ext.qosID : Nat := 0x01 ||| iext.ENC_Z64

/-- Modelled from the spec: the declare envelope's Timestamp extension id
(fixed-shape numeric extension, §3). -/
def declare.ext.tstampID : Nat := 0x02 ||| iext.ENC_Z64

/-- Modelled from the spec: the subscriber-info extension id. -/
def subscriber.ext.infoID : Nat := 0x01 ||| iext.ENC_Z64

/-- Modelled from the spec: the queryable-info extension id. -/
def queryable.ext.infoID : Nat := 0x01 ||| iext.ENC_Z64

/-! ## Variable-length integer codec

Modelled from the spec: "Variable-width identifier field" (§6) written as
a self-delimiting base-128 varint, low groups first, with a continuation
high bit. -/

/-- Modelled from the spec: varint write worker; `fuel` bounds the number
of emitted groups and any `fuel > n` is sufficient. -/
def zintWriteAux : Nat → Nat → List Nat
  | 0, _ => []
  | f + 1, n => if n < 0x80 then [n] else (n % 0x80 + 0x80) :: zintWriteAux f (n / 0x80)

/-- Modelled from the spec: encode a nonnegative integer as a varint. -/
def zintWrite (n : Nat) : List Nat := zintWriteAux (n + 1) n

/-- Modelled from the spec: decode a varint from the front of a byte
stream, returning the value and the unconsumed rest. -/
def zintRead : List Nat → Option (Nat × List Nat)
  | [] => none
  | b :: r =>
    if b < 0x80 then some (b, r)
    else
      match zintRead r with
      | some (n, r1) => some (n * 0x80 + (b - 0x80), r1)
      | none => none

theorem zintWriteAux_spec (fuel n : Nat) (h : n < fuel) (rest : List Nat) :
    zintRead (zintWriteAux fuel n ++ rest) = some (n, rest) := by
  induction fuel generalizing n with
  | zero => omega
  | succ f ih =>
    by_cases hn : n < 0x80
    · simp [zintWriteAux, zintRead, hn]
    · have hdiv : n / 0x80 < f := by
        have h1 : n / 0x80 < n := Nat.div_lt_self (by omega) (by omega)
        omega
      have hmod : ¬ (n % 0x80 + 0x80 < 0x80) := by omega
      simp only [zintWriteAux, if_neg hn, List.cons_append, zintRead, if_neg hmod,
        ih (n / 0x80) hdiv]
      have heq : n / 0x80 * 0x80 + n % 0x80 = n := by omega
      simp [heq]

/-- Varint round-trip: reading back an encoded value yields the value and
leaves the rest of the stream untouched. -/
theorem zint_rt (n : Nat) (rest : List Nat) :
    zintRead (zintWrite n ++ rest) = some (n, rest) :=
  zintWriteAux_spec (n + 1) n (Nat.lt_succ_self n) rest

/-- Reading a varint consumes at least one byte. -/
theorem zintRead_length {r r1 : List Nat} {n : Nat} (h : zintRead r = some (n, r1)) :
    r1.length < r.length := by
  induction r generalizing n r1 with
  | nil => simp [zintRead] at h
  | cons b r ih =>
    simp only [zintRead] at h
    by_cases hb : b < 0x80
    · rw [if_pos hb] at h
      injection h with h1
      injection h1 with h2 h3
      subst h3
      simp
    · rw [if_neg hb] at h
      cases hr : zintRead r with
      | none => rw [hr] at h; cases h
      | some v =>
        obtain ⟨m, r2⟩ := v
        rw [hr] at h
        injection h with h1
        injection h1 with h2 h3
        subst h3
        have := ih hr
        simp only [List.length_cons]
        omega

/-! ## Length-prefixed byte buffers -/

/-- Modelled from the spec: read exactly `n` raw bytes, failing with a
truncation error when fewer are available. -/
def readBytesN (n : Nat) (r : List Nat) : Option (List Nat × List Nat) :=
  if n ≤ r.length then some (r.take n, r.drop n) else none

/-- Modelled from the spec: a length-prefixed buffer is a varint length
followed by that many raw bytes. -/
def writeBuf (b : List Nat) : List Nat := zintWrite b.length ++ b

/-- Modelled from the spec: read a length-prefixed buffer. -/
def readBuf (r : List Nat) : Option (List Nat × List Nat) :=
  match zintRead r with
  | some (n, r1) => readBytesN n r1
  | none => none

theorem readBytesN_append (b rest : List Nat) :
    readBytesN b.length (b ++ rest) = some (b, rest) := by
  simp [readBytesN, List.take_left, List.drop_left]

theorem buf_rt (b rest : List Nat) :
    readBuf (writeBuf b ++ rest) = some (b, rest) := by
  simp [readBuf, writeBuf, List.append_assoc, zint_rt, readBytesN_append]

theorem readBytesN_length {n : Nat} {r b r1 : List Nat}
    (h : readBytesN n r = some (b, r1)) : r1.length ≤ r.length := by
  simp only [readBytesN] at h
  split at h
  · cases h; simp
  · cases h

theorem readBuf_length {r b r1 : List Nat} (h : readBuf r = some (b, r1)) :
    r1.length < r.length := by
  simp only [readBuf] at h
  cases hz : zintRead r with
  | none => rw [hz] at h; cases h
  | some v =>
    obtain ⟨n, r2⟩ := v
    rw [hz] at h
    have h1 := zintRead_length hz
    have h2 := readBytesN_length h
    omega

/-! ## Wire expressions

Modelled from the spec (§2, §6, glossary): a wire expression is a numeric
scope reference plus an optional literal suffix; it is an external
collaborator consumed as an opaque codec with a "has literal suffix"
condition flag. The suffix is kept as raw bytes. -/

/-- Modelled from the spec: a key-expression reference — a per-session
numeric identifier plus an optional literal suffix. -/
structure WireExpr where
  scope : Nat
  suffix : List Nat
  deriving DecidableEq, Repr

/-- Modelled from the spec: whether the wire expression carries a literal
suffix. -/
def WireExpr.hasSuffix (w : WireExpr) : Bool := !w.suffix.isEmpty

/-- Modelled from the spec: write the numeric scope, then the suffix
(length-prefixed) only when one is present. -/
def writeWireExpr (w : WireExpr) : List Nat :=
  zintWrite w.scope ++ (if w.hasSuffix then writeBuf w.suffix else [])

/-- Modelled from the spec: the condition-parameterized wire-expression
reader — the `has-suffix` condition is derived from flag `N` by the
caller. -/
def readWireExpr (cond : Bool) (r : List Nat) : Option (WireExpr × List Nat) :=
  match zintRead r with
  | none => none
  | some (scope, r1) =>
    if cond then
      match readBuf r1 with
      | none => none
      | some (s, r2) => some (⟨scope, s⟩, r2)
    else some (⟨scope, []⟩, r1)

/-- Wire-expression round-trip under the matching suffix condition. -/
theorem wire_rt (w : WireExpr) (rest : List Nat) :
    readWireExpr w.hasSuffix (writeWireExpr w ++ rest) = some (w, rest) := by
  cases w with
  | mk scope suffix =>
    cases suffix with
    | nil =>
      simp [readWireExpr, writeWireExpr, WireExpr.hasSuffix, zint_rt]
    | cons a s =>
      simp [readWireExpr, writeWireExpr, WireExpr.hasSuffix, List.append_assoc,
        zint_rt, buf_rt]

/-! ## Generic extension machinery -/

/-- Modelled from the spec: the continuation-flag-stripped extension
header together with the shape bits let a decoder consume an unknown
extension's payload (unit: none; numeric: one varint; buffer:
length-prefixed bytes). Returns the unconsumed rest. -/
def readUnknownBody (ext : Nat) (r : List Nat) : Option (List Nat) :=
  if ext &&& iext.ENC_MASK == iext.ENC_UNIT then some r
  else if ext &&& iext.ENC_MASK == iext.ENC_Z64 then
    match zintRead r with
    | some (_, r1) => some r1
    | none => none
  else if ext &&& iext.ENC_MASK == iext.ENC_ZBUF then
    match readBuf r with
    | some (_, r1) => some r1
    | none => none
  else none

/-- Modelled from the spec (§4.1, §7): consume and discard one
unrecognized extension using its self-describing length, then fail if the
extension is marked mandatory-to-understand; otherwise return its
continuation bit. -/
def extSkip (ext : Nat) (r : List Nat) : Option (Bool × List Nat) :=
  match readUnknownBody ext r with
  | none => none
  | some r1 =>
    if iext.isMandatory ext then none
    else some (imsg.hasFlag ext iext.FLAG_Z, r1)

/-- Modelled from the spec: skip a whole extension chain (used by message
kinds that declare no extensions of their own but must still honor flag
`Z` for forward compatibility). `fuel` bounds the number of chain
elements; any `fuel > r.length` is sufficient since every element consumes
at least its header byte. -/
def extSkipAll : Nat → List Nat → Option (List Nat)
  | 0, _ => none
  | f + 1, r =>
    match r with
    | [] => none
    | e :: r1 =>
      match extSkip e r1 with
      | none => none
      | some (more, r2) => if more then extSkipAll f r2 else some r2

theorem readUnknownBody_length {ext : Nat} {r r1 : List Nat}
    (h : readUnknownBody ext r = some r1) : r1.length ≤ r.length := by
  simp only [readUnknownBody] at h
  split at h
  · cases h; exact le_refl _
  · split at h
    · cases hz : zintRead r with
      | none => rw [hz] at h; cases h
      | some v =>
        obtain ⟨n, r2⟩ := v
        rw [hz] at h
        cases h
        exact le_of_lt (zintRead_length hz)
    · split at h
      · cases hb : readBuf r with
        | none => rw [hb] at h; cases h
        | some v =>
          obtain ⟨b, r2⟩ := v
          rw [hb] at h
          cases h
          exact le_of_lt (readBuf_length hb)
      · cases h

theorem extSkip_length {ext : Nat} {r r1 : List Nat} {more : Bool}
    (h : extSkip ext r = some (more, r1)) : r1.length ≤ r.length := by
  simp only [extSkip] at h
  cases hu : readUnknownBody ext r with
  | none => rw [hu] at h; cases h
  | some r2 =>
    rw [hu] at h
    dsimp only at h
    by_cases hm : iext.isMandatory ext = true
    · rw [if_pos hm] at h; cases h
    · rw [if_neg hm] at h
      cases h
      exact readUnknownBody_length hu

/-- Modelled from the spec: a numeric (`Z64`) extension is its header byte
(identifier plus continuation bit) followed by its value as a varint. -/
def writeExtZ64 (xid value : Nat) (more : Bool) : List Nat :=
  (xid ||| (if more then iext.FLAG_Z else 0)) :: zintWrite value

/-! ## Data model of the declaration family

Modelled from the spec (§3): the eight-variant declaration body, the
mapping discriminant, the declare envelope, and the default values of the
capability-info and QoS extensions. -/

/-- Modelled from the spec: which side assigned a numeric identifier. -/
inductive Mapping
  | sender
  | receiver
  deriving DecidableEq, Repr

/-- Modelled from the spec: `Mapping::default()` — identifiers are
receiver-mapped unless stated otherwise (flag `M` unset). -/
def Mapping.default : Mapping := .receiver

/-- Modelled from the spec: the default (absent) QoS extension value. -/
def declare.ext.qosDefault : Nat := 5

/-- Modelled from the spec: the default (absent) subscriber-info value. -/
def subscriber.ext.infoDefault : Nat := 0

/-- Modelled from the spec: the default (absent) queryable-info value. -/
def queryable.ext.infoDefault : Nat := 0

structure DeclareKeyExpr where
  id : Nat
  wire_expr : WireExpr
  deriving DecidableEq, Repr

structure UndeclareKeyExpr where
  id : Nat
  deriving DecidableEq, Repr

structure DeclareSubscriber where
  id : Nat
  wire_expr : WireExpr
  mapping : Mapping
  ext_info : Nat
  deriving DecidableEq, Repr

structure UndeclareSubscriber where
  id : Nat
  deriving DecidableEq, Repr

structure DeclareQueryable where
  id : Nat
  wire_expr : WireExpr
  mapping : Mapping
  ext_info : Nat
  deriving DecidableEq, Repr

structure UndeclareQueryable where
  id : Nat
  deriving DecidableEq, Repr

structure DeclareToken where
  id : Nat
  wire_expr : WireExpr
  mapping : Mapping
  deriving DecidableEq, Repr

structure UndeclareToken where
  id : Nat
  deriving DecidableEq, Repr

/-- Modelled from the spec: the closed eight-variant declaration body. -/
inductive DeclareBody
  | DeclareKeyExpr : DeclareKeyExpr → DeclareBody
  | UndeclareKeyExpr : UndeclareKeyExpr → DeclareBody
  | DeclareSubscriber : DeclareSubscriber → DeclareBody
  | UndeclareSubscriber : UndeclareSubscriber → DeclareBody
  | DeclareQueryable : DeclareQueryable → DeclareBody
  | UndeclareQueryable : UndeclareQueryable → DeclareBody
  | DeclareToken : DeclareToken → DeclareBody
  | UndeclareToken : UndeclareToken → DeclareBody
  deriving DecidableEq, Repr

/-- Modelled from the spec: the declare envelope — one body plus a
default-valued QoS extension and a truly optional timestamp extension. -/
structure Declare where
  body : DeclareBody
  ext_qos : Nat
  ext_tstamp : Option Nat
  deriving DecidableEq, Repr

/-! ## Encoders (`WCodec` impls of `network/declare.rs`) -/

/-- Header byte of an encoded `DeclareKeyExpr`: the kind id, with `N` set
when the wire expression carries a suffix. -/
def keyexprDHeader (x : DeclareKeyExpr) : Nat :=
  declare.id.D_KEYEXPR ||| (if x.wire_expr.hasSuffix then flag.N else 0)

/-- Encoder for `DeclareKeyExpr`: header, id, wire expression. -/
def writeDeclareKeyExpr (x : DeclareKeyExpr) : List Nat :=
  keyexprDHeader x :: (zintWrite x.id ++ writeWireExpr x.wire_expr)

/-- Encoder for `UndeclareKeyExpr`: bare kind id as header, then the id. -/
def writeUndeclareKeyExpr (x : UndeclareKeyExpr) : List Nat :=
  declare.id.U_KEYEXPR :: zintWrite x.id

/-- Header byte of an encoded `DeclareSubscriber`: the kind id, with `Z`
set when the info extension is non-default, `M` when the mapping is
non-default, and `N` when the wire expression carries a suffix. -/
def subscriberDHeader (x : DeclareSubscriber) : Nat :=
  declare.id.D_SUBSCRIBER
    ||| (if x.ext_info != subscriber.ext.infoDefault then flag.Z else 0)
    ||| (if x.mapping != Mapping.default then flag.M else 0)
    ||| (if x.wire_expr.hasSuffix then flag.N else 0)

/-- Encoder for `DeclareSubscriber`: header, id, wire expression, then the
info extension only when non-default (it is the sole extension, so its
continuation bit is false). -/
def writeDeclareSubscriber (x : DeclareSubscriber) : List Nat :=
  subscriberDHeader x ::
    (zintWrite x.id ++ writeWireExpr x.wire_expr ++
      (if x.ext_info != subscriber.ext.infoDefault then
        writeExtZ64 subscriber.ext.infoID x.ext_info false
      else []))

/-- Encoder for `UndeclareSubscriber`: bare kind id, then the id. -/
def writeUndeclareSubscriber (x : UndeclareSubscriber) : List Nat :=
  declare.id.U_SUBSCRIBER :: zintWrite x.id

/-- Header byte of an encoded `DeclareQueryable` (`Z`/`M`/`N` as for the
subscriber). -/
def queryableDHeader (x : DeclareQueryable) : Nat :=
  declare.id.D_QUERYABLE
    ||| (if x.ext_info != queryable.ext.infoDefault then flag.Z else 0)
    ||| (if x.mapping != Mapping.default then flag.M else 0)
    ||| (if x.wire_expr.hasSuffix then flag.N else 0)

/-- Encoder for `DeclareQueryable`. -/
def writeDeclareQueryable (x : DeclareQueryable) : List Nat :=
  queryableDHeader x ::
    (zintWrite x.id ++ writeWireExpr x.wire_expr ++
      (if x.ext_info != queryable.ext.infoDefault then
        writeExtZ64 queryable.ext.infoID x.ext_info false
      else []))

/-- Encoder for `UndeclareQueryable`: bare kind id, then the id. -/
def writeUndeclareQueryable (x : UndeclareQueryable) : List Nat :=
  declare.id.U_QUERYABLE :: zintWrite x.id

/-- Header byte of an encoded `DeclareToken` (`M`/`N`; tokens declare no
extensions). -/
def tokenDHeader (x : DeclareToken) : Nat :=
  declare.id.D_TOKEN
    ||| (if x.mapping != Mapping.default then flag.M else 0)
    ||| (if x.wire_expr.hasSuffix then flag.N else 0)

/-- Encoder for `DeclareToken`. -/
def writeDeclareToken (x : DeclareToken) : List Nat :=
  tokenDHeader x :: (zintWrite x.id ++ writeWireExpr x.wire_expr)

/-- Encoder for `UndeclareToken`: bare kind id, then the id. -/
def writeUndeclareToken (x : UndeclareToken) : List Nat :=
  declare.id.U_TOKEN :: zintWrite x.id

/-- Encoder for `DeclareBody`: dispatch on the variant. -/
def writeDeclareBody : DeclareBody → List Nat
  | .DeclareKeyExpr x => writeDeclareKeyExpr x
  | .UndeclareKeyExpr x => writeUndeclareKeyExpr x
  | .DeclareSubscriber x => writeDeclareSubscriber x
  | .UndeclareSubscriber x => writeUndeclareSubscriber x
  | .DeclareQueryable x => writeDeclareQueryable x
  | .UndeclareQueryable x => writeUndeclareQueryable x
  | .DeclareToken x => writeDeclareToken x
  | .UndeclareToken x => writeUndeclareToken x

/-- Number of non-default extensions of a `Declare` envelope (`n_exts` in
the encoder). -/
def declareNExts (x : Declare) : Nat :=
  (if x.ext_qos != declare.ext.qosDefault then 1 else 0)
    + (if x.ext_tstamp.isSome then 1 else 0)

/-- Header byte of an encoded `Declare` envelope: the envelope id, with
`Z` set when `n_exts` is non-zero. -/
def declareHeader (x : Declare) : Nat :=
  id.DECLARE ||| (if declareNExts x != 0 then flag.Z else 0)

/-- Encoder for the `Declare` envelope: header, then the non-default
extensions (QoS first, then timestamp), each with a continuation bit
telling whether another extension follows, then the body. -/
def writeDeclare (x : Declare) : List Nat :=
  declareHeader x ::
    ((if x.ext_qos != declare.ext.qosDefault then
        writeExtZ64 declare.ext.qosID x.ext_qos (declareNExts x - 1 != 0)
      else []) ++
      (match x.ext_tstamp with
        | some t => writeExtZ64 declare.ext.tstampID t false
        | none => []) ++
      writeDeclareBody x.body)

/-! ## Decoders (`RCodec` impls of `network/declare.rs`)

Extension-chain loops carry a `fuel` bound on the number of chain
elements; every element consumes at least its header byte, so any
`fuel > r.length` is sufficient and the entry points pass `r.length + 1`. -/

/-- Extension loop of the `DeclareSubscriber` decoder: recognized info
extensions overwrite the accumulator, unknown ones are skipped. -/
def readSubExtLoop : Nat → Nat → List Nat → Option (Nat × List Nat)
  | 0, _, _ => none
  | f + 1, info, r =>
    match r with
    | [] => none
    | e :: r1 =>
      if iext.eid e == subscriber.ext.infoID then
        match zintRead r1 with
        | none => none
        | some (v, r2) =>
          if imsg.hasFlag e iext.FLAG_Z then readSubExtLoop f v r2 else some (v, r2)
      else
        match extSkip e r1 with
        | none => none
        | some (more, r2) =>
          if more then readSubExtLoop f info r2 else some (info, r2)

/-- Extension loop of the `DeclareQueryable` decoder. -/
def readQryExtLoop : Nat → Nat → List Nat → Option (Nat × List Nat)
  | 0, _, _ => none
  | f + 1, info, r =>
    match r with
    | [] => none
    | e :: r1 =>
      if iext.eid e == queryable.ext.infoID then
        match zintRead r1 with
        | none => none
        | some (v, r2) =>
          if imsg.hasFlag e iext.FLAG_Z then readQryExtLoop f v r2 else some (v, r2)
      else
        match extSkip e r1 with
        | none => none
        | some (more, r2) =>
          if more then readQryExtLoop f info r2 else some (info, r2)

/-- Extension loop of the `Declare` envelope decoder: recognized QoS and
timestamp extensions overwrite their accumulator, unknown ones are
skipped. -/
def readDeclExtLoop : Nat → Nat → Option Nat → List Nat → Option (Nat × Option Nat × List Nat)
  | 0, _, _, _ => none
  | f + 1, qos, ts, r =>
    match r with
    | [] => none
    | e :: r1 =>
      if iext.eid e == declare.ext.qosID then
        match zintRead r1 with
        | none => none
        | some (q, r2) =>
          if imsg.hasFlag e iext.FLAG_Z then readDeclExtLoop f q ts r2
          else some (q, ts, r2)
      else if iext.eid e == declare.ext.tstampID then
        match zintRead r1 with
        | none => none
        | some (t, r2) =>
          if imsg.hasFlag e iext.FLAG_Z then readDeclExtLoop f qos (some t) r2
          else some (qos, some t, r2)
      else
        match extSkip e r1 with
        | none => none
        | some (more, r2) =>
          if more then readDeclExtLoop f qos ts r2 else some (qos, ts, r2)

/-- `Zenoh080Header` decoder for `DeclareKeyExpr`: reject a wrong message
id, read id and wire expression, skip any extension chain. -/
def readDeclareKeyExprH (header : Nat) (r : List Nat) :
    Option (DeclareKeyExpr × List Nat) :=
  if imsg.mid header != declare.id.D_KEYEXPR then none
  else
    match zintRead r with
    | none => none
    | some (i, r1) =>
      match readWireExpr (imsg.hasFlag header flag.N) r1 with
      | none => none
      | some (we, r2) =>
        if imsg.hasFlag header flag.Z then
          match extSkipAll (r2.length + 1) r2 with
          | none => none
          | some r3 => some (⟨i, we⟩, r3)
        else some (⟨i, we⟩, r2)

/-- `Zenoh080Header` decoder for `UndeclareKeyExpr`. -/
def readUndeclareKeyExprH (header : Nat) (r : List Nat) :
    Option (UndeclareKeyExpr × List Nat) :=
  if imsg.mid header != declare.id.U_KEYEXPR then none
  else
    match zintRead r with
    | none => none
    | some (i, r1) =>
      if imsg.hasFlag header flag.Z then
        match extSkipAll (r1.length + 1) r1 with
        | none => none
        | some r2 => some (⟨i⟩, r2)
      else some (⟨i⟩, r1)

/-- `Zenoh080Header` decoder for `DeclareSubscriber`: reject a wrong
message id, read id and wire expression (suffix per flag `N`), derive the
mapping from flag `M`, then run the extension loop when flag `Z` is set. -/
def readDeclareSubscriberH (header : Nat) (r : List Nat) :
    Option (DeclareSubscriber × List Nat) :=
  if imsg.mid header != declare.id.D_SUBSCRIBER then none
  else
    match zintRead r with
    | none => none
    | some (i, r1) =>
      match readWireExpr (imsg.hasFlag header flag.N) r1 with
      | none => none
      | some (we, r2) =>
        let mapping := if imsg.hasFlag header flag.M then Mapping.sender else Mapping.receiver
        if imsg.hasFlag header flag.Z then
          match readSubExtLoop (r2.length + 1) subscriber.ext.infoDefault r2 with
          | none => none
          | some (info, r3) => some (⟨i, we, mapping, info⟩, r3)
        else some (⟨i, we, mapping, subscriber.ext.infoDefault⟩, r2)

/-- `Zenoh080Header` decoder for `UndeclareSubscriber`. -/
def readUndeclareSubscriberH (header : Nat) (r : List Nat) :
    Option (UndeclareSubscriber × List Nat) :=
  if imsg.mid header != declare.id.U_SUBSCRIBER then none
  else
    match zintRead r with
    | none => none
    | some (i, r1) =>
      if imsg.hasFlag header flag.Z then
        match extSkipAll (r1.length + 1) r1 with
        | none => none
        | some r2 => some (⟨i⟩, r2)
      else some (⟨i⟩, r1)

/-- `Zenoh080Header` decoder for `DeclareQueryable`. -/
def readDeclareQueryableH (header : Nat) (r : List Nat) :
    Option (DeclareQueryable × List Nat) :=
  if imsg.mid header != declare.id.D_QUERYABLE then none
  else
    match zintRead r with
    | none => none
    | some (i, r1) =>
      match readWireExpr (imsg.hasFlag header flag.N) r1 with
      | none => none
      | some (we, r2) =>
        let mapping := if imsg.hasFlag header flag.M then Mapping.sender else Mapping.receiver
        if imsg.hasFlag header flag.Z then
          match readQryExtLoop (r2.length + 1) queryable.ext.infoDefault r2 with
          | none => none
          | some (info, r3) => some (⟨i, we, mapping, info⟩, r3)
        else some (⟨i, we, mapping, queryable.ext.infoDefault⟩, r2)

/-- `Zenoh080Header` decoder for `UndeclareQueryable`. -/
def readUndeclareQueryableH (header : Nat) (r : List Nat) :
    Option (UndeclareQueryable × List Nat) :=
  if imsg.mid header != declare.id.U_QUERYABLE then none
  else
    match zintRead r with
    | none => none
    | some (i, r1) =>
      if imsg.hasFlag header flag.Z then
        match extSkipAll (r1.length + 1) r1 with
        | none => none
        | some r2 => some (⟨i⟩, r2)
      else some (⟨i⟩, r1)

/-- `Zenoh080Header` decoder for `DeclareToken`. -/
def readDeclareTokenH (header : Nat) (r : List Nat) :
    Option (DeclareToken × List Nat) :=
  if imsg.mid header != declare.id.D_TOKEN then none
  else
    match zintRead r with
    | none => none
    | some (i, r1) =>
      match readWireExpr (imsg.hasFlag header flag.N) r1 with
      | none => none
      | some (we, r2) =>
        let mapping := if imsg.hasFlag header flag.M then Mapping.sender else Mapping.receiver
        if imsg.hasFlag header flag.Z then
          match extSkipAll (r2.length + 1) r2 with
          | none => none
          | some r3 => some (⟨i, we, mapping⟩, r3)
        else some (⟨i, we, mapping⟩, r2)

/-- `Zenoh080Header` decoder for `UndeclareToken`. -/
def readUndeclareTokenH (header : Nat) (r : List Nat) :
    Option (UndeclareToken × List Nat) :=
  if imsg.mid header != declare.id.U_TOKEN then none
  else
    match zintRead r with
    | none => none
    | some (i, r1) =>
      if imsg.hasFlag header flag.Z then
        match extSkipAll (r1.length + 1) r1 with
        | none => none
        | some r2 => some (⟨i⟩, r2)
      else some (⟨i⟩, r1)

/-- Decoder for `DeclareBody`: read the header byte and dispatch on its
message-id bits, failing on an unknown id. -/
def readDeclareBody (r : List Nat) : Option (DeclareBody × List Nat) :=
  match r with
  | [] => none
  | h :: r1 =>
    if imsg.mid h == declare.id.D_KEYEXPR then
      (readDeclareKeyExprH h r1).map fun p => (.DeclareKeyExpr p.1, p.2)
    else if imsg.mid h == declare.id.U_KEYEXPR then
      (readUndeclareKeyExprH h r1).map fun p => (.UndeclareKeyExpr p.1, p.2)
    else if imsg.mid h == declare.id.D_SUBSCRIBER then
      (readDeclareSubscriberH h r1).map fun p => (.DeclareSubscriber p.1, p.2)
    else if imsg.mid h == declare.id.U_SUBSCRIBER then
      (readUndeclareSubscriberH h r1).map fun p => (.UndeclareSubscriber p.1, p.2)
    else if imsg.mid h == declare.id.D_QUERYABLE then
      (readDeclareQueryableH h r1).map fun p => (.DeclareQueryable p.1, p.2)
    else if imsg.mid h == declare.id.U_QUERYABLE then
      (readUndeclareQueryableH h r1).map fun p => (.UndeclareQueryable p.1, p.2)
    else if imsg.mid h == declare.id.D_TOKEN then
      (readDeclareTokenH h r1).map fun p => (.DeclareToken p.1, p.2)
    else if imsg.mid h == declare.id.U_TOKEN then
      (readUndeclareTokenH h r1).map fun p => (.UndeclareToken p.1, p.2)
    else none

/-- `Zenoh080Header` decoder for the `Declare` envelope: reject a wrong
message id, run the extension loop when flag `Z` is set, then read the
body. -/
def readDeclareH (header : Nat) (r : List Nat) : Option (Declare × List Nat) :=
  if imsg.mid header != id.DECLARE then none
  else
    let step : Option (Nat × Option Nat × List Nat) :=
      if imsg.hasFlag header flag.Z then
        readDeclExtLoop (r.length + 1) declare.ext.qosDefault none r
      else some (declare.ext.qosDefault, none, r)
    match step with
    | none => none
    | some (qos, ts, r1) =>
      match readDeclareBody r1 with
      | none => none
      | some (body, r2) => some (⟨body, qos, ts⟩, r2)

/-- Top-level decoder for the `Declare` envelope: read the header byte
then delegate to the header-parameterized decoder. -/
def readDeclare (r : List Nat) : Option (Declare × List Nat) :=
  match r with
  | [] => none
  | h :: r1 => readDeclareH h r1

/-- Top-level decoder for `DeclareSubscriber` (reads the header byte
itself, as the `Zenoh080` impl does). -/
def readDeclareSubscriberMsg (r : List Nat) : Option (DeclareSubscriber × List Nat) :=
  match r with
  | [] => none
  | h :: r1 => readDeclareSubscriberH h r1

/-! ## Header-byte lemmas -/

theorem subscriberDHeader_mid (x : DeclareSubscriber) :
    imsg.mid (subscriberDHeader x) = declare.id.D_SUBSCRIBER := by
  by_cases h1 : x.ext_info != subscriber.ext.infoDefault <;>
    by_cases h2 : x.mapping != Mapping.default <;>
    by_cases h3 : x.wire_expr.hasSuffix = true <;>
    simp [subscriberDHeader, h1, h2, h3] <;> decide

theorem subscriberDHeader_N (x : DeclareSubscriber) :
    imsg.hasFlag (subscriberDHeader x) flag.N = x.wire_expr.hasSuffix := by
  by_cases h1 : x.ext_info != subscriber.ext.infoDefault <;>
    by_cases h2 : x.mapping != Mapping.default <;>
    by_cases h3 : x.wire_expr.hasSuffix = true <;>
    simp [subscriberDHeader, h1, h2, h3] <;> decide

theorem subscriberDHeader_M (x : DeclareSubscriber) :
    imsg.hasFlag (subscriberDHeader x) flag.M = (x.mapping != Mapping.default) := by
  by_cases h1 : x.ext_info != subscriber.ext.infoDefault <;>
    by_cases h2 : x.mapping != Mapping.default <;>
    by_cases h3 : x.wire_expr.hasSuffix = true <;>
    simp [subscriberDHeader, h1, h2, h3] <;> decide

theorem subscriberDHeader_Z (x : DeclareSubscriber) :
    imsg.hasFlag (subscriberDHeader x) flag.Z = (x.ext_info != subscriber.ext.infoDefault) := by
  by_cases h1 : x.ext_info != subscriber.ext.infoDefault <;>
    by_cases h2 : x.mapping != Mapping.default <;>
    by_cases h3 : x.wire_expr.hasSuffix = true <;>
    simp [subscriberDHeader, h1, h2, h3] <;> decide

/-! ## Round-trip, `DeclareSubscriber` -/

theorem readSubExtLoop_single (f info v : Nat) (rest : List Nat) :
    readSubExtLoop (f + 1) info (writeExtZ64 subscriber.ext.infoID v false ++ rest) =
      some (v, rest) := by
  have he : iext.eid subscriber.ext.infoID = subscriber.ext.infoID := by decide
  have hz : imsg.hasFlag subscriber.ext.infoID iext.FLAG_Z = false := by decide
  simp [writeExtZ64, readSubExtLoop, he, hz, zint_rt]

theorem mapping_of_flag (x : DeclareSubscriber) :
    (if imsg.hasFlag (subscriberDHeader x) flag.M then Mapping.sender else Mapping.receiver) =
      x.mapping := by
  rw [subscriberDHeader_M]
  cases hm : x.mapping <;> simp [Mapping.default]

theorem readDeclareSubscriberH_rt (x : DeclareSubscriber) (rest : List Nat) :
    readDeclareSubscriberH (subscriberDHeader x)
      ((zintWrite x.id ++ writeWireExpr x.wire_expr ++
        (if x.ext_info != subscriber.ext.infoDefault then
          writeExtZ64 subscriber.ext.infoID x.ext_info false
        else [])) ++ rest) =
      some (x, rest) := by
  have hmid : (imsg.mid (subscriberDHeader x) != declare.id.D_SUBSCRIBER) = false := by
    simp [subscriberDHeader_mid]
  by_cases hinfo : x.ext_info = subscriber.ext.infoDefault
  · simp only [readDeclareSubscriberH, hmid, Bool.false_eq_true, if_false, hinfo,
      bne_self_eq_false, List.append_nil, List.append_assoc, zint_rt,
      subscriberDHeader_N, wire_rt, subscriberDHeader_Z]
    simp [mapping_of_flag x, ← hinfo]
  · have hne : (x.ext_info != subscriber.ext.infoDefault) = true := by
      simp [hinfo]
    simp only [readDeclareSubscriberH, hmid, Bool.false_eq_true, if_false, hne, if_true,
      List.append_assoc, zint_rt, subscriberDHeader_N, wire_rt, subscriberDHeader_Z,
      readSubExtLoop_single]
    simp [mapping_of_flag x]

/-! ## Round-trip, `DeclareQueryable` -/

theorem queryableDHeader_mid (x : DeclareQueryable) :
    imsg.mid (queryableDHeader x) = declare.id.D_QUERYABLE := by
  by_cases h1 : x.ext_info != queryable.ext.infoDefault <;>
    by_cases h2 : x.mapping != Mapping.default <;>
    by_cases h3 : x.wire_expr.hasSuffix = true <;>
    simp [queryableDHeader, h1, h2, h3] <;> decide

theorem queryableDHeader_N (x : DeclareQueryable) :
    imsg.hasFlag (queryableDHeader x) flag.N = x.wire_expr.hasSuffix := by
  by_cases h1 : x.ext_info != queryable.ext.infoDefault <;>
    by_cases h2 : x.mapping != Mapping.default <;>
    by_cases h3 : x.wire_expr.hasSuffix = true <;>
    simp [queryableDHeader, h1, h2, h3] <;> decide

theorem queryableDHeader_M (x : DeclareQueryable) :
    imsg.hasFlag (queryableDHeader x) flag.M = (x.mapping != Mapping.default) := by
  by_cases h1 : x.ext_info != queryable.ext.infoDefault <;>
    by_cases h2 : x.mapping != Mapping.default <;>
    by_cases h3 : x.wire_expr.hasSuffix = true <;>
    simp [queryableDHeader, h1, h2, h3] <;> decide

theorem queryableDHeader_Z (x : DeclareQueryable) :
    imsg.hasFlag (queryableDHeader x) flag.Z = (x.ext_info != queryable.ext.infoDefault) := by
  by_cases h1 : x.ext_info != queryable.ext.infoDefault <;>
    by_cases h2 : x.mapping != Mapping.default <;>
    by_cases h3 : x.wire_expr.hasSuffix = true <;>
    simp [queryableDHeader, h1, h2, h3] <;> decide

theorem readQryExtLoop_single (f info v : Nat) (rest : List Nat) :
    readQryExtLoop (f + 1) info (writeExtZ64 queryable.ext.infoID v false ++ rest) =
      some (v, rest) := by
  have he : iext.eid queryable.ext.infoID = queryable.ext.infoID := by decide
  have hz : imsg.hasFlag queryable.ext.infoID iext.FLAG_Z = false := by decide
  simp [writeExtZ64, readQryExtLoop, he, hz, zint_rt]

theorem mapping_of_flag_qry (x : DeclareQueryable) :
    (if imsg.hasFlag (queryableDHeader x) flag.M then Mapping.sender else Mapping.receiver) =
      x.mapping := by
  rw [queryableDHeader_M]
  cases hm : x.mapping <;> simp [Mapping.default]

theorem readDeclareQueryableH_rt (x : DeclareQueryable) (rest : List Nat) :
    readDeclareQueryableH (queryableDHeader x)
      ((zintWrite x.id ++ writeWireExpr x.wire_expr ++
        (if x.ext_info != queryable.ext.infoDefault then
          writeExtZ64 queryable.ext.infoID x.ext_info false
        else [])) ++ rest) =
      some (x, rest) := by
  have hmid : (imsg.mid (queryableDHeader x) != declare.id.D_QUERYABLE) = false := by
    simp [queryableDHeader_mid]
  by_cases hinfo : x.ext_info = queryable.ext.infoDefault
  · simp only [readDeclareQueryableH, hmid, Bool.false_eq_true, if_false, hinfo,
      bne_self_eq_false, List.append_nil, List.append_assoc, zint_rt,
      queryableDHeader_N, wire_rt, queryableDHeader_Z]
    simp [mapping_of_flag_qry x, ← hinfo]
  · have hne : (x.ext_info != queryable.ext.infoDefault) = true := by
      simp [hinfo]
    simp only [readDeclareQueryableH, hmid, Bool.false_eq_true, if_false, hne, if_true,
      List.append_assoc, zint_rt, queryableDHeader_N, wire_rt, queryableDHeader_Z,
      readQryExtLoop_single]
    simp [mapping_of_flag_qry x]

/-! ## Round-trip, `DeclareToken` -/

theorem tokenDHeader_mid (x : DeclareToken) :
    imsg.mid (tokenDHeader x) = declare.id.D_TOKEN := by
  by_cases h2 : x.mapping != Mapping.default <;>
    by_cases h3 : x.wire_expr.hasSuffix = true <;>
    simp [tokenDHeader, h2, h3] <;> decide

theorem tokenDHeader_N (x : DeclareToken) :
    imsg.hasFlag (tokenDHeader x) flag.N = x.wire_expr.hasSuffix := by
  by_cases h2 : x.mapping != Mapping.default <;>
    by_cases h3 : x.wire_expr.hasSuffix = true <;>
    simp [tokenDHeader, h2, h3] <;> decide

theorem tokenDHeader_M (x : DeclareToken) :
    imsg.hasFlag (tokenDHeader x) flag.M = (x.mapping != Mapping.default) := by
  by_cases h2 : x.mapping != Mapping.default <;>
    by_cases h3 : x.wire_expr.hasSuffix = true <;>
    simp [tokenDHeader, h2, h3] <;> decide

theorem tokenDHeader_Z (x : DeclareToken) :
    imsg.hasFlag (tokenDHeader x) flag.Z = false := by
  by_cases h2 : x.mapping != Mapping.default <;>
    by_cases h3 : x.wire_expr.hasSuffix = true <;>
    simp [tokenDHeader, h2, h3] <;> decide

theorem mapping_of_flag_tok (x : DeclareToken) :
    (if imsg.hasFlag (tokenDHeader x) flag.M then Mapping.sender else Mapping.receiver) =
      x.mapping := by
  rw [tokenDHeader_M]
  cases hm : x.mapping <;> simp [Mapping.default]

theorem readDeclareTokenH_rt (x : DeclareToken) (rest : List Nat) :
    readDeclareTokenH (tokenDHeader x)
      ((zintWrite x.id ++ writeWireExpr x.wire_expr) ++ rest) = some (x, rest) := by
  have hmid : (imsg.mid (tokenDHeader x) != declare.id.D_TOKEN) = false := by
    simp [tokenDHeader_mid]
  simp only [readDeclareTokenH, hmid, Bool.false_eq_true, if_false,
    List.append_assoc, zint_rt, tokenDHeader_N, wire_rt, tokenDHeader_Z]
  simp [mapping_of_flag_tok x]

/-! ## Round-trip, `DeclareKeyExpr` -/

theorem keyexprDHeader_mid (x : DeclareKeyExpr) :
    imsg.mid (keyexprDHeader x) = declare.id.D_KEYEXPR := by
  by_cases h3 : x.wire_expr.hasSuffix = true <;>
    simp [keyexprDHeader, h3] <;> decide

theorem keyexprDHeader_N (x : DeclareKeyExpr) :
    imsg.hasFlag (keyexprDHeader x) flag.N = x.wire_expr.hasSuffix := by
  by_cases h3 : x.wire_expr.hasSuffix = true <;>
    simp [keyexprDHeader, h3] <;> decide

theorem keyexprDHeader_Z (x : DeclareKeyExpr) :
    imsg.hasFlag (keyexprDHeader x) flag.Z = false := by
  by_cases h3 : x.wire_expr.hasSuffix = true <;>
    simp [keyexprDHeader, h3] <;> decide

theorem readDeclareKeyExprH_rt (x : DeclareKeyExpr) (rest : List Nat) :
    readDeclareKeyExprH (keyexprDHeader x)
      ((zintWrite x.id ++ writeWireExpr x.wire_expr) ++ rest) = some (x, rest) := by
  have hmid : (imsg.mid (keyexprDHeader x) != declare.id.D_KEYEXPR) = false := by
    simp [keyexprDHeader_mid]
  simp [readDeclareKeyExprH, hmid, List.append_assoc, zint_rt,
    keyexprDHeader_N, wire_rt, keyexprDHeader_Z]

/-! ## Round-trips, `Undeclare*` -/

theorem readUndeclareKeyExprH_rt (x : UndeclareKeyExpr) (rest : List Nat) :
    readUndeclareKeyExprH declare.id.U_KEYEXPR (zintWrite x.id ++ rest) = some (x, rest) := by
  have h1 : (imsg.mid declare.id.U_KEYEXPR != declare.id.U_KEYEXPR) = false := by decide
  have h2 : imsg.hasFlag declare.id.U_KEYEXPR flag.Z = false := by decide
  simp [readUndeclareKeyExprH, h1, h2, zint_rt]

theorem readUndeclareSubscriberH_rt (x : UndeclareSubscriber) (rest : List Nat) :
    readUndeclareSubscriberH declare.id.U_SUBSCRIBER (zintWrite x.id ++ rest) =
      some (x, rest) := by
  have h1 : (imsg.mid declare.id.U_SUBSCRIBER != declare.id.U_SUBSCRIBER) = false := by decide
  have h2 : imsg.hasFlag declare.id.U_SUBSCRIBER flag.Z = false := by decide
  simp [readUndeclareSubscriberH, h1, h2, zint_rt]

theorem readUndeclareQueryableH_rt (x : UndeclareQueryable) (rest : List Nat) :
    readUndeclareQueryableH declare.id.U_QUERYABLE (zintWrite x.id ++ rest) =
      some (x, rest) := by
  have h1 : (imsg.mid declare.id.U_QUERYABLE != declare.id.U_QUERYABLE) = false := by decide
  have h2 : imsg.hasFlag declare.id.U_QUERYABLE flag.Z = false := by decide
  simp [readUndeclareQueryableH, h1, h2, zint_rt]

theorem readUndeclareTokenH_rt (x : UndeclareToken) (rest : List Nat) :
    readUndeclareTokenH declare.id.U_TOKEN (zintWrite x.id ++ rest) = some (x, rest) := by
  have h1 : (imsg.mid declare.id.U_TOKEN != declare.id.U_TOKEN) = false := by decide
  have h2 : imsg.hasFlag declare.id.U_TOKEN flag.Z = false := by decide
  simp [readUndeclareTokenH, h1, h2, zint_rt]

/-! ## Body dispatch lemmas -/

theorem readDeclareBody_dk (h : Nat) (r : List Nat)
    (hmid : imsg.mid h = declare.id.D_KEYEXPR) :
    readDeclareBody (h :: r) =
      (readDeclareKeyExprH h r).map fun p => (.DeclareKeyExpr p.1, p.2) := by
  simp only [readDeclareBody, hmid]
  simp [declare.id.D_KEYEXPR]

theorem readDeclareBody_uk (h : Nat) (r : List Nat)
    (hmid : imsg.mid h = declare.id.U_KEYEXPR) :
    readDeclareBody (h :: r) =
      (readUndeclareKeyExprH h r).map fun p => (.UndeclareKeyExpr p.1, p.2) := by
  simp only [readDeclareBody, hmid]
  simp [declare.id.D_KEYEXPR, declare.id.U_KEYEXPR]

theorem readDeclareBody_ds (h : Nat) (r : List Nat)
    (hmid : imsg.mid h = declare.id.D_SUBSCRIBER) :
    readDeclareBody (h :: r) =
      (readDeclareSubscriberH h r).map fun p => (.DeclareSubscriber p.1, p.2) := by
  simp only [readDeclareBody, hmid]
  simp [declare.id.D_KEYEXPR, declare.id.U_KEYEXPR, declare.id.D_SUBSCRIBER]

theorem readDeclareBody_us (h : Nat) (r : List Nat)
    (hmid : imsg.mid h = declare.id.U_SUBSCRIBER) :
    readDeclareBody (h :: r) =
      (readUndeclareSubscriberH h r).map fun p => (.UndeclareSubscriber p.1, p.2) := by
  simp only [readDeclareBody, hmid]
  simp [declare.id.D_KEYEXPR, declare.id.U_KEYEXPR, declare.id.D_SUBSCRIBER,
    declare.id.U_SUBSCRIBER]

theorem readDeclareBody_dq (h : Nat) (r : List Nat)
    (hmid : imsg.mid h = declare.id.D_QUERYABLE) :
    readDeclareBody (h :: r) =
      (readDeclareQueryableH h r).map fun p => (.DeclareQueryable p.1, p.2) := by
  simp only [readDeclareBody, hmid]
  simp [declare.id.D_KEYEXPR, declare.id.U_KEYEXPR, declare.id.D_SUBSCRIBER,
    declare.id.U_SUBSCRIBER, declare.id.D_QUERYABLE]

theorem readDeclareBody_uq (h : Nat) (r : List Nat)
    (hmid : imsg.mid h = declare.id.U_QUERYABLE) :
    readDeclareBody (h :: r) =
      (readUndeclareQueryableH h r).map fun p => (.UndeclareQueryable p.1, p.2) := by
  simp only [readDeclareBody, hmid]
  simp [declare.id.D_KEYEXPR, declare.id.U_KEYEXPR, declare.id.D_SUBSCRIBER,
    declare.id.U_SUBSCRIBER, declare.id.D_QUERYABLE, declare.id.U_QUERYABLE]

theorem readDeclareBody_dt (h : Nat) (r : List Nat)
    (hmid : imsg.mid h = declare.id.D_TOKEN) :
    readDeclareBody (h :: r) =
      (readDeclareTokenH h r).map fun p => (.DeclareToken p.1, p.2) := by
  simp only [readDeclareBody, hmid]
  simp [declare.id.D_KEYEXPR, declare.id.U_KEYEXPR, declare.id.D_SUBSCRIBER,
    declare.id.U_SUBSCRIBER, declare.id.D_QUERYABLE, declare.id.U_QUERYABLE,
    declare.id.D_TOKEN]

theorem readDeclareBody_ut (h : Nat) (r : List Nat)
    (hmid : imsg.mid h = declare.id.U_TOKEN) :
    readDeclareBody (h :: r) =
      (readUndeclareTokenH h r).map fun p => (.UndeclareToken p.1, p.2) := by
  simp only [readDeclareBody, hmid]
  simp [declare.id.D_KEYEXPR, declare.id.U_KEYEXPR, declare.id.D_SUBSCRIBER,
    declare.id.U_SUBSCRIBER, declare.id.D_QUERYABLE, declare.id.U_QUERYABLE,
    declare.id.D_TOKEN, declare.id.U_TOKEN]

/-- Round-trip of the whole body codec, leaving any appended rest of the
stream untouched. -/
theorem declare_body_rt (x : DeclareBody) (rest : List Nat) :
    readDeclareBody (writeDeclareBody x ++ rest) = some (x, rest) := by
  cases x with
  | DeclareKeyExpr y =>
    rw [writeDeclareBody, writeDeclareKeyExpr, List.cons_append,
      readDeclareBody_dk _ _ (keyexprDHeader_mid y), readDeclareKeyExprH_rt]
    rfl
  | UndeclareKeyExpr y =>
    rw [writeDeclareBody, writeUndeclareKeyExpr, List.cons_append,
      readDeclareBody_uk _ _ (by decide), readUndeclareKeyExprH_rt]
    rfl
  | DeclareSubscriber y =>
    rw [writeDeclareBody, writeDeclareSubscriber, List.cons_append,
      readDeclareBody_ds _ _ (subscriberDHeader_mid y), readDeclareSubscriberH_rt]
    rfl
  | UndeclareSubscriber y =>
    rw [writeDeclareBody, writeUndeclareSubscriber, List.cons_append,
      readDeclareBody_us _ _ (by decide), readUndeclareSubscriberH_rt]
    rfl
  | DeclareQueryable y =>
    rw [writeDeclareBody, writeDeclareQueryable, List.cons_append,
      readDeclareBody_dq _ _ (queryableDHeader_mid y), readDeclareQueryableH_rt]
    rfl
  | UndeclareQueryable y =>
    rw [writeDeclareBody, writeUndeclareQueryable, List.cons_append,
      readDeclareBody_uq _ _ (by decide), readUndeclareQueryableH_rt]
    rfl
  | DeclareToken y =>
    rw [writeDeclareBody, writeDeclareToken, List.cons_append,
      readDeclareBody_dt _ _ (tokenDHeader_mid y), readDeclareTokenH_rt]
    rfl
  | UndeclareToken y =>
    rw [writeDeclareBody, writeUndeclareToken, List.cons_append,
      readDeclareBody_ut _ _ (by decide), readUndeclareTokenH_rt]
    rfl

/-! ## Envelope header and extension-loop lemmas -/

theorem declareHeader_Z (x : Declare) :
    imsg.hasFlag (declareHeader x) flag.Z =
      (x.ext_qos != declare.ext.qosDefault || x.ext_tstamp.isSome) := by
  by_cases h1 : x.ext_qos != declare.ext.qosDefault <;>
    by_cases h2 : x.ext_tstamp.isSome = true <;>
    simp [declareHeader, declareNExts, h1, h2] <;> decide

theorem readDeclExtLoop_qos_last (f qos v : Nat) (ts : Option Nat) (rest : List Nat) :
    readDeclExtLoop (f + 1) qos ts (writeExtZ64 declare.ext.qosID v false ++ rest) =
      some (v, ts, rest) := by
  have he : iext.eid declare.ext.qosID = declare.ext.qosID := by decide
  have hz : imsg.hasFlag declare.ext.qosID iext.FLAG_Z = false := by decide
  simp [writeExtZ64, readDeclExtLoop, he, hz, zint_rt]

theorem readDeclExtLoop_qos_more (f qos v : Nat) (ts : Option Nat) (rest : List Nat) :
    readDeclExtLoop (f + 1) qos ts (writeExtZ64 declare.ext.qosID v true ++ rest) =
      readDeclExtLoop f v ts rest := by
  have he : iext.eid (declare.ext.qosID ||| iext.FLAG_Z) = declare.ext.qosID := by decide
  have hz : imsg.hasFlag (declare.ext.qosID ||| iext.FLAG_Z) iext.FLAG_Z = true := by decide
  simp [writeExtZ64, readDeclExtLoop, he, hz, zint_rt]

theorem readDeclExtLoop_ts_last (f qos t : Nat) (ts : Option Nat) (rest : List Nat) :
    readDeclExtLoop (f + 1) qos ts (writeExtZ64 declare.ext.tstampID t false ++ rest) =
      some (qos, some t, rest) := by
  have hne : iext.eid declare.ext.tstampID = declare.ext.tstampID := by decide
  have hq : ¬ (iext.eid declare.ext.tstampID = declare.ext.qosID) := by decide
  have hz : imsg.hasFlag declare.ext.tstampID iext.FLAG_Z = false := by decide
  have htq : ¬ (declare.ext.tstampID = declare.ext.qosID) := by decide
  simp [writeExtZ64, readDeclExtLoop, hne, hq, hz, htq, zint_rt]

theorem readDeclExtLoop_ts_more (f qos t : Nat) (ts : Option Nat) (rest : List Nat) :
    readDeclExtLoop (f + 1) qos ts (writeExtZ64 declare.ext.tstampID t true ++ rest) =
      readDeclExtLoop f qos (some t) rest := by
  have hne : iext.eid (declare.ext.tstampID ||| iext.FLAG_Z) = declare.ext.tstampID := by decide
  have hq : ¬ (iext.eid (declare.ext.tstampID ||| iext.FLAG_Z) = declare.ext.qosID) := by decide
  have hz : imsg.hasFlag (declare.ext.tstampID ||| iext.FLAG_Z) iext.FLAG_Z = true := by decide
  have htq : ¬ (declare.ext.tstampID = declare.ext.qosID) := by decide
  simp [writeExtZ64, readDeclExtLoop, hne, hq, hz, htq, zint_rt]

theorem readSubExtLoop_more (f info v : Nat) (rest : List Nat) :
    readSubExtLoop (f + 1) info (writeExtZ64 subscriber.ext.infoID v true ++ rest) =
      readSubExtLoop f v rest := by
  have he : iext.eid (subscriber.ext.infoID ||| iext.FLAG_Z) = subscriber.ext.infoID := by decide
  have hz : imsg.hasFlag (subscriber.ext.infoID ||| iext.FLAG_Z) iext.FLAG_Z = true := by decide
  simp [writeExtZ64, readSubExtLoop, he, hz, zint_rt]

/-- A varint is never empty. -/
theorem zintWrite_length_pos (n : Nat) : 0 < (zintWrite n).length := by
  rw [zintWrite, zintWriteAux]
  split <;> simp

/-- A numeric extension occupies its header byte plus its varint value. -/
theorem writeExtZ64_length (xid v : Nat) (m : Bool) :
    (writeExtZ64 xid v m).length = 1 + (zintWrite v).length := by
  simp [writeExtZ64]
  omega

/-! ## Transport establishment, accept side: the `InitSyn` receive step

The control flow below embeds `recv` of
`src/io/zenoh-transport/src/unicast/establishment/accept/init_syn.rs`.
The value types it consumes (`InitSyn`, `TransportBody`, the close reason
code, the role/identity/resolution scalars) are not among the shown
sources and are modelled from the spec (§3, §6). -/

/-- Modelled from the spec: the peer's declared role. -/
inductive WhatAmI
  | router
  | peer
  | client
  deriving DecidableEq, Repr

/-- Modelled from the spec: the `InitSyn` handshake message — version,
role, identity, resolution widths, batch size, and an optional QoS
capability marker. Identity and resolution are opaque scalars here. -/
structure InitSyn where
  version : Nat
  whatami : WhatAmI
  zid : Nat
  resolution : Nat
  batch_size : Nat
  qos : Option Nat
  deriving DecidableEq, Repr

/-- Modelled from the spec: a transport-message body is either an
`InitSyn` or one of the other handshake/data variants, which `recv`
treats uniformly. -/
inductive TransportBody
  | InitSyn : InitSyn → TransportBody
  | OtherBody : TransportBody
  deriving DecidableEq, Repr

/-- Modelled from the spec: a decoded transport message (only its body is
consumed by the `InitSyn` stage). -/
structure TransportMsg where
  body : TransportBody
  deriving DecidableEq, Repr

/-- Modelled from the spec: the close reason surfaced on any validation
failure of the Init stage. -/
def close.reason.INVALID : Nat := 2

/-- The value produced from one accepted `InitSyn` (the `Output` struct of
`accept/init_syn.rs`). -/
structure Output where
  whatami : WhatAmI
  zid : Nat
  resolution : Nat
  batch_size : Nat
  is_qos : Bool
  deriving DecidableEq, Repr

/-- The read-only slice of the transport manager consulted by `recv`
(`manager.config.version`). -/
structure TransportConfig where
  version : Nat
  deriving DecidableEq, Repr

/-- The accept-side `InitSyn` receive step. The link read is supplied as
an already-resolved `Except` (the suspension point is outside the
validation logic); errors are modelled by their close-reason payload, as
in `AResult`'s `(Error, Option<u8>)`. -/
def recv (linkRead : Except Unit (List TransportMsg)) (manager : TransportConfig) :
    Except (Option Nat) Output :=
  match linkRead with
  | .error _ => .error (some close.reason.INVALID)
  | .ok messages =>
    match messages with
    | [msg] =>
      match msg.body with
      | .InitSyn init_syn =>
        if init_syn.version != manager.version then
          .error (some close.reason.INVALID)
        else
          .ok ⟨init_syn.whatami, init_syn.zid, init_syn.resolution, init_syn.batch_size,
            init_syn.qos.isSome⟩
      | _ => .error (some close.reason.INVALID)
    | _ => .error (some close.reason.INVALID)

/-! ## Further codec helpers -/

/-- Reading the whole body codec's output with nothing appended. -/
theorem readDeclareBody_write (b : DeclareBody) :
    readDeclareBody (writeDeclareBody b) = some (b, []) := by
  have h := declare_body_rt b []
  simpa using h

/-- A wire expression without a suffix is its scope varint. -/
theorem wire_rt_noSuffix (s : Nat) (rest : List Nat) :
    readWireExpr false (zintWrite s ++ rest) = some (⟨s, []⟩, rest) := by
  simp [readWireExpr, zint_rt]

/-! ## Symbolic extension chains

To settle the last-wins property over every extension chain, chains are
represented symbolically: a list of elements, each either a recognized
extension of the decoder at hand or an unrecognized-but-skippable numeric
extension (its id bits are kept below the mandatory bit by construction,
so it is skippable; well-formedness only excludes collision with the
recognized ids). The chain encoder emits each element with a continuation
bit that is true except on the last element, exactly as the envelope and
subscriber encoders frame their extensions. -/

/-- One element of a `Declare`-envelope extension chain: a QoS extension,
a timestamp extension, or an unrecognized skippable numeric extension. -/
inductive DeclExt
  | qos (v : Nat)
  | tstamp (v : Nat)
  | unknown (j v : Nat)
  deriving DecidableEq, Repr

/-- An unknown chain element must not collide with the recognized
extension ids of the envelope decoder. -/
def DeclExt.wf : DeclExt → Bool
  | .unknown j _ => j % 16 != 1 && j % 16 != 2
  | _ => true

/-- Encode one envelope chain element with the given continuation bit. -/
def writeDeclExt : DeclExt → Bool → List Nat
  | .qos v, more => writeExtZ64 declare.ext.qosID v more
  | .tstamp v, more => writeExtZ64 declare.ext.tstampID v more
  | .unknown j v, more => writeExtZ64 (j % 16 ||| iext.ENC_Z64) v more

/-- Encode a whole envelope extension chain: continuation bit true on
every element but the last. -/
def writeDeclExtChain : List DeclExt → List Nat
  | [] => []
  | [x] => writeDeclExt x false
  | x :: y :: t => writeDeclExt x true ++ writeDeclExtChain (y :: t)

/-- The overwrite-in-order accumulator semantics of the envelope decoder's
QoS slot. -/
def declChainQoS : Nat → List DeclExt → Nat
  | q, [] => q
  | _, .qos v :: t => declChainQoS v t
  | q, .tstamp _ :: t => declChainQoS q t
  | q, .unknown _ _ :: t => declChainQoS q t

/-- The overwrite-in-order accumulator semantics of the envelope decoder's
timestamp slot. -/
def declChainTs : Option Nat → List DeclExt → Option Nat
  | ts, [] => ts
  | ts, .qos _ :: t => declChainTs ts t
  | _, .tstamp v :: t => declChainTs (some v) t
  | ts, .unknown _ _ :: t => declChainTs ts t

/-- The QoS values occurring in a chain, in order. -/
def qosValues (chain : List DeclExt) : List Nat :=
  chain.filterMap fun x => match x with | .qos v => some v | _ => none

/-- The timestamp values occurring in a chain, in order. -/
def tsValues (chain : List DeclExt) : List Nat :=
  chain.filterMap fun x => match x with | .tstamp v => some v | _ => none

/-- One element of a `DeclareSubscriber` extension chain: an info
extension or an unrecognized skippable numeric extension. -/
inductive SubExt
  | info (v : Nat)
  | unknown (j v : Nat)
  deriving DecidableEq, Repr

/-- An unknown chain element must not collide with the subscriber-info
extension id. -/
def SubExt.wf : SubExt → Bool
  | .unknown j _ => j % 16 != 1
  | _ => true

/-- Encode one subscriber chain element with the given continuation bit. -/
def writeSubExt : SubExt → Bool → List Nat
  | .info v, more => writeExtZ64 subscriber.ext.infoID v more
  | .unknown j v, more => writeExtZ64 (j % 16 ||| iext.ENC_Z64) v more

/-- Encode a whole subscriber extension chain. -/
def writeSubExtChain : List SubExt → List Nat
  | [] => []
  | [x] => writeSubExt x false
  | x :: y :: t => writeSubExt x true ++ writeSubExtChain (y :: t)

/-- The overwrite-in-order accumulator semantics of the subscriber
decoder's info slot. -/
def subChainInfo : Nat → List SubExt → Nat
  | v0, [] => v0
  | _, .info v :: t => subChainInfo v t
  | v0, .unknown _ _ :: t => subChainInfo v0 t

/-- The info values occurring in a chain, in order. -/
def infoValues (schain : List SubExt) : List Nat :=
  schain.filterMap fun x => match x with | .info v => some v | _ => none

/-! ## Unknown-extension step facts -/

theorem unknown_hdr_basic : ∀ k, k < 16 →
    iext.eid (k ||| iext.ENC_Z64) = k ||| iext.ENC_Z64 ∧
    iext.eid ((k ||| iext.ENC_Z64) ||| iext.FLAG_Z) = k ||| iext.ENC_Z64 ∧
    iext.isMandatory (k ||| iext.ENC_Z64) = false ∧
    imsg.hasFlag (k ||| iext.ENC_Z64) iext.FLAG_Z = false ∧
    imsg.hasFlag ((k ||| iext.ENC_Z64) ||| iext.FLAG_Z) iext.FLAG_Z = true ∧
    (k ||| iext.ENC_Z64) &&& iext.ENC_MASK = iext.ENC_Z64 := by decide

theorem unknown_hdr_ne_one : ∀ k, k < 16 → k ≠ 1 →
    (k ||| iext.ENC_Z64) ≠ declare.ext.qosID ∧
    (k ||| iext.ENC_Z64) ≠ subscriber.ext.infoID := by decide

theorem unknown_hdr_ne_two : ∀ k, k < 16 → k ≠ 2 →
    (k ||| iext.ENC_Z64) ≠ declare.ext.tstampID := by decide

/-- Skipping a non-mandatory unknown numeric extension consumes its varint
value and reports its continuation bit. -/
theorem extSkip_z64 (e v : Nat) (rest : List Nat)
    (hm : iext.isMandatory e = false) (henc : e &&& iext.ENC_MASK = iext.ENC_Z64) :
    extSkip e (zintWrite v ++ rest) = some (imsg.hasFlag e iext.FLAG_Z, rest) := by
  have h0 : (e &&& iext.ENC_MASK == iext.ENC_UNIT) = false := by rw [henc]; decide
  have h1 : (e &&& iext.ENC_MASK == iext.ENC_Z64) = true := by rw [henc]; decide
  simp [extSkip, readUnknownBody, h0, h1, hm, zint_rt]

theorem readDeclExtLoop_unknown_last (f q v j : Nat) (ts : Option Nat) (rest : List Nat)
    (h1 : j % 16 ≠ 1) (h2 : j % 16 ≠ 2) :
    readDeclExtLoop (f + 1) q ts (writeExtZ64 (j % 16 ||| iext.ENC_Z64) v false ++ rest) =
      some (q, ts, rest) := by
  have hk : j % 16 < 16 := Nat.mod_lt j (by omega)
  obtain ⟨ha, hb, hc, hd, he2, hf2⟩ := unknown_hdr_basic (j % 16) hk
  obtain ⟨hq, _⟩ := unknown_hdr_ne_one (j % 16) hk h1
  have ht := unknown_hdr_ne_two (j % 16) hk h2
  simp [writeExtZ64, readDeclExtLoop, ha, hq, ht, extSkip_z64 _ v rest hc hf2, hd]

theorem readDeclExtLoop_unknown_more (f q v j : Nat) (ts : Option Nat) (rest : List Nat)
    (h1 : j % 16 ≠ 1) (h2 : j % 16 ≠ 2) :
    readDeclExtLoop (f + 1) q ts (writeExtZ64 (j % 16 ||| iext.ENC_Z64) v true ++ rest) =
      readDeclExtLoop f q ts rest := by
  have hk : j % 16 < 16 := Nat.mod_lt j (by omega)
  obtain ⟨ha, hb, hc, hd, he2, hf2⟩ := unknown_hdr_basic (j % 16) hk
  obtain ⟨hq, _⟩ := unknown_hdr_ne_one (j % 16) hk h1
  have ht := unknown_hdr_ne_two (j % 16) hk h2
  have hm2 : iext.isMandatory ((j % 16 ||| iext.ENC_Z64) ||| iext.FLAG_Z) = false := by
    have hk2 := hk
    revert hk2
    generalize j % 16 = k
    revert k
    decide
  have henc2 : ((j % 16 ||| iext.ENC_Z64) ||| iext.FLAG_Z) &&& iext.ENC_MASK =
      iext.ENC_Z64 := by
    have hk2 := hk
    revert hk2
    generalize j % 16 = k
    revert k
    decide
  simp [writeExtZ64, readDeclExtLoop, hb, hq, ht, extSkip_z64 _ v rest hm2 henc2, he2]

theorem readSubExtLoop_unknown_last (f v0 v j : Nat) (rest : List Nat)
    (h1 : j % 16 ≠ 1) :
    readSubExtLoop (f + 1) v0 (writeExtZ64 (j % 16 ||| iext.ENC_Z64) v false ++ rest) =
      some (v0, rest) := by
  have hk : j % 16 < 16 := Nat.mod_lt j (by omega)
  obtain ⟨ha, hb, hc, hd, he2, hf2⟩ := unknown_hdr_basic (j % 16) hk
  obtain ⟨_, hi⟩ := unknown_hdr_ne_one (j % 16) hk h1
  simp [writeExtZ64, readSubExtLoop, ha, hi, extSkip_z64 _ v rest hc hf2, hd]

theorem readSubExtLoop_unknown_more (f v0 v j : Nat) (rest : List Nat)
    (h1 : j % 16 ≠ 1) :
    readSubExtLoop (f + 1) v0 (writeExtZ64 (j % 16 ||| iext.ENC_Z64) v true ++ rest) =
      readSubExtLoop f v0 rest := by
  have hk : j % 16 < 16 := Nat.mod_lt j (by omega)
  obtain ⟨ha, hb, hc, hd, he2, hf2⟩ := unknown_hdr_basic (j % 16) hk
  obtain ⟨_, hi⟩ := unknown_hdr_ne_one (j % 16) hk h1
  have hm2 : iext.isMandatory ((j % 16 ||| iext.ENC_Z64) ||| iext.FLAG_Z) = false := by
    have hk2 := hk
    revert hk2
    generalize j % 16 = k
    revert k
    decide
  have henc2 : ((j % 16 ||| iext.ENC_Z64) ||| iext.FLAG_Z) &&& iext.ENC_MASK =
      iext.ENC_Z64 := by
    have hk2 := hk
    revert hk2
    generalize j % 16 = k
    revert k
    decide
  simp [writeExtZ64, readSubExtLoop, hb, hi, extSkip_z64 _ v rest hm2 henc2, he2]

/-- A mandatory-to-understand extension makes the skip operation fail. -/
theorem extSkip_mandatory (e : Nat) (r : List Nat) (hm : iext.isMandatory e = true) :
    extSkip e r = none := by
  simp only [extSkip]
  cases h : readUnknownBody e r <;> simp [hm]

/-! ## Chain-level decode lemmas -/

theorem writeDeclExt_length_pos (x : DeclExt) (m : Bool) :
    0 < (writeDeclExt x m).length := by
  cases x <;> simp [writeDeclExt, writeExtZ64]

theorem writeDeclExtChain_length (chain : List DeclExt) :
    chain.length ≤ (writeDeclExtChain chain).length := by
  induction chain with
  | nil => simp [writeDeclExtChain]
  | cons x t ih =>
    cases t with
    | nil =>
      simpa [writeDeclExtChain] using writeDeclExt_length_pos x false
    | cons y t2 =>
      have h1 := writeDeclExt_length_pos x true
      simp only [writeDeclExtChain, List.length_append, List.length_cons]
      simp only [List.length_cons] at ih
      omega

/-- The envelope extension loop on an arbitrary encoded chain computes the
overwrite-in-order folds, given enough fuel for the chain's elements. -/
theorem readDeclExtLoop_chain (chain : List DeclExt) :
    ∀ (f q : Nat) (ts : Option Nat) (rest : List Nat),
      chain ≠ [] → chain.length ≤ f → (∀ x ∈ chain, x.wf = true) →
      readDeclExtLoop f q ts (writeDeclExtChain chain ++ rest) =
        some (declChainQoS q chain, declChainTs ts chain, rest) := by
  induction chain with
  | nil => intro f q ts rest hne _ _; exact absurd rfl hne
  | cons x t ih =>
    intro f q ts rest _ hlen hwf
    cases f with
    | zero => simp at hlen
    | succ f =>
      cases t with
      | nil =>
        cases x with
        | qos v =>
          simp only [writeDeclExtChain, writeDeclExt, declChainQoS, declChainTs]
          exact readDeclExtLoop_qos_last f q v ts rest
        | tstamp v =>
          simp only [writeDeclExtChain, writeDeclExt, declChainQoS, declChainTs]
          exact readDeclExtLoop_ts_last f q v ts rest
        | unknown j v =>
          have hw := hwf (.unknown j v) (by simp)
          simp only [DeclExt.wf, Bool.and_eq_true, bne_iff_ne, ne_eq] at hw
          obtain ⟨h1, h2⟩ := hw
          simp only [writeDeclExtChain, writeDeclExt, declChainQoS, declChainTs]
          exact readDeclExtLoop_unknown_last f q v j ts rest h1 h2
      | cons y t2 =>
        have hlen2 : (y :: t2).length ≤ f := by
          simp only [List.length_cons] at hlen ⊢
          omega
        have hwf2 : ∀ z ∈ y :: t2, z.wf = true := fun z hz =>
          hwf z (List.mem_cons_of_mem x hz)
        have hne2 : (y :: t2) ≠ [] := by simp
        cases x with
        | qos v =>
          simp only [writeDeclExtChain, writeDeclExt, declChainQoS, declChainTs,
            List.append_assoc]
          rw [readDeclExtLoop_qos_more]
          exact ih f v ts rest hne2 hlen2 hwf2
        | tstamp v =>
          simp only [writeDeclExtChain, writeDeclExt, declChainQoS, declChainTs,
            List.append_assoc]
          rw [readDeclExtLoop_ts_more]
          exact ih f q (some v) rest hne2 hlen2 hwf2
        | unknown j v =>
          have hw := hwf (.unknown j v) (by simp)
          simp only [DeclExt.wf, Bool.and_eq_true, bne_iff_ne, ne_eq] at hw
          obtain ⟨h1, h2⟩ := hw
          simp only [writeDeclExtChain, writeDeclExt, declChainQoS, declChainTs,
            List.append_assoc]
          rw [readDeclExtLoop_unknown_more f q v j ts _ h1 h2]
          exact ih f q ts rest hne2 hlen2 hwf2

theorem writeSubExt_length_pos (x : SubExt) (m : Bool) :
    0 < (writeSubExt x m).length := by
  cases x <;> simp [writeSubExt, writeExtZ64]

theorem writeSubExtChain_length (schain : List SubExt) :
    schain.length ≤ (writeSubExtChain schain).length := by
  induction schain with
  | nil => simp [writeSubExtChain]
  | cons x t ih =>
    cases t with
    | nil =>
      simpa [writeSubExtChain] using writeSubExt_length_pos x false
    | cons y t2 =>
      have h1 := writeSubExt_length_pos x true
      simp only [writeSubExtChain, List.length_append, List.length_cons]
      simp only [List.length_cons] at ih
      omega

/-- The subscriber extension loop on an arbitrary encoded chain computes
the overwrite-in-order fold, given enough fuel. -/
theorem readSubExtLoop_chain (schain : List SubExt) :
    ∀ (f v0 : Nat) (rest : List Nat),
      schain ≠ [] → schain.length ≤ f → (∀ x ∈ schain, x.wf = true) →
      readSubExtLoop f v0 (writeSubExtChain schain ++ rest) =
        some (subChainInfo v0 schain, rest) := by
  induction schain with
  | nil => intro f v0 rest hne _ _; exact absurd rfl hne
  | cons x t ih =>
    intro f v0 rest _ hlen hwf
    cases f with
    | zero => simp at hlen
    | succ f =>
      cases t with
      | nil =>
        cases x with
        | info v =>
          simp only [writeSubExtChain, writeSubExt, subChainInfo]
          exact readSubExtLoop_single f v0 v rest
        | unknown j v =>
          have hw := hwf (.unknown j v) (by simp)
          simp only [SubExt.wf, bne_iff_ne, ne_eq] at hw
          simp only [writeSubExtChain, writeSubExt, subChainInfo]
          exact readSubExtLoop_unknown_last f v0 v j rest hw
      | cons y t2 =>
        have hlen2 : (y :: t2).length ≤ f := by
          simp only [List.length_cons] at hlen ⊢
          omega
        have hwf2 : ∀ z ∈ y :: t2, z.wf = true := fun z hz =>
          hwf z (List.mem_cons_of_mem x hz)
        have hne2 : (y :: t2) ≠ [] := by simp
        cases x with
        | info v =>
          simp only [writeSubExtChain, writeSubExt, subChainInfo, List.append_assoc]
          rw [readSubExtLoop_more]
          exact ih f v rest hne2 hlen2 hwf2
        | unknown j v =>
          have hw := hwf (.unknown j v) (by simp)
          simp only [SubExt.wf, bne_iff_ne, ne_eq] at hw
          simp only [writeSubExtChain, writeSubExt, subChainInfo, List.append_assoc]
          rw [readSubExtLoop_unknown_more f v0 v j _ hw]
          exact ih f v0 rest hne2 hlen2 hwf2

/-- Envelope decode of an arbitrary extension chain followed by a body:
the extension slots end up holding the overwrite-in-order folds. -/
theorem readDeclareH_chain (chain : List DeclExt) (b : DeclareBody) (rest : List Nat)
    (hne : chain ≠ []) (hwf : ∀ x ∈ chain, x.wf = true) :
    readDeclareH (id.DECLARE ||| flag.Z)
      (writeDeclExtChain chain ++ (writeDeclareBody b ++ rest)) =
      some (⟨b, declChainQoS declare.ext.qosDefault chain, declChainTs none chain⟩,
        rest) := by
  have hmid : (imsg.mid (id.DECLARE ||| flag.Z) != id.DECLARE) = false := by decide
  have hz : imsg.hasFlag (id.DECLARE ||| flag.Z) flag.Z = true := by decide
  have hflen : chain.length ≤
      (writeDeclExtChain chain ++ (writeDeclareBody b ++ rest)).length + 1 := by
    have h := writeDeclExtChain_length chain
    simp only [List.length_append]
    omega
  simp only [readDeclareH, hmid, Bool.false_eq_true, if_false, hz, if_true,
    readDeclExtLoop_chain chain _ _ _ _ hne hflen hwf, declare_body_rt]

/-- Subscriber decode of an arbitrary extension chain: the info slot ends
up holding the overwrite-in-order fold. -/
theorem readDeclareSubscriberH_chain (schain : List SubExt) (i s : Nat) (rest : List Nat)
    (hne : schain ≠ []) (hwf : ∀ x ∈ schain, x.wf = true) :
    readDeclareSubscriberH (declare.id.D_SUBSCRIBER ||| flag.Z)
      (zintWrite i ++ (zintWrite s ++ (writeSubExtChain schain ++ rest))) =
      some (⟨i, ⟨s, []⟩, Mapping.receiver,
        subChainInfo subscriber.ext.infoDefault schain⟩, rest) := by
  have hmid : (imsg.mid (declare.id.D_SUBSCRIBER ||| flag.Z) !=
      declare.id.D_SUBSCRIBER) = false := by decide
  have hN : imsg.hasFlag (declare.id.D_SUBSCRIBER ||| flag.Z) flag.N = false := by decide
  have hM : imsg.hasFlag (declare.id.D_SUBSCRIBER ||| flag.Z) flag.M = false := by decide
  have hZ : imsg.hasFlag (declare.id.D_SUBSCRIBER ||| flag.Z) flag.Z = true := by decide
  have hflen : schain.length ≤ (writeSubExtChain schain ++ rest).length + 1 := by
    have h := writeSubExtChain_length schain
    simp only [List.length_append]
    omega
  simp only [readDeclareSubscriberH, hmid, Bool.false_eq_true, if_false, zint_rt, hN,
    wire_rt_noSuffix, hM, hZ, if_true,
    readSubExtLoop_chain schain _ _ _ hne hflen hwf]

/-! ## Folds compute the last occurrence -/

theorem declChainQoS_getLastD (chain : List DeclExt) (q : Nat) :
    declChainQoS q chain = (qosValues chain).getLastD q := by
  induction chain generalizing q with
  | nil => rfl
  | cons x t ih =>
    cases x with
    | qos v =>
      show declChainQoS v t = (qosValues (.qos v :: t)).getLastD q
      rw [show qosValues (.qos v :: t) = v :: qosValues t from rfl, List.getLastD_cons]
      exact ih v
    | tstamp v =>
      show declChainQoS q t = (qosValues (.tstamp v :: t)).getLastD q
      rw [show qosValues (.tstamp v :: t) = qosValues t from rfl]
      exact ih q
    | unknown j v =>
      show declChainQoS q t = (qosValues (.unknown j v :: t)).getLastD q
      rw [show qosValues (.unknown j v :: t) = qosValues t from rfl]
      exact ih q

theorem declChainTs_getLastD (chain : List DeclExt) (ts : Option Nat) :
    declChainTs ts chain = ((tsValues chain).map some).getLastD ts := by
  induction chain generalizing ts with
  | nil => rfl
  | cons x t ih =>
    cases x with
    | qos v =>
      show declChainTs ts t = ((tsValues (.qos v :: t)).map some).getLastD ts
      rw [show tsValues (.qos v :: t) = tsValues t from rfl]
      exact ih ts
    | tstamp v =>
      show declChainTs (some v) t = ((tsValues (.tstamp v :: t)).map some).getLastD ts
      rw [show (tsValues (.tstamp v :: t)).map some =
        some v :: (tsValues t).map some from rfl, List.getLastD_cons]
      exact ih (some v)
    | unknown j v =>
      show declChainTs ts t = ((tsValues (.unknown j v :: t)).map some).getLastD ts
      rw [show tsValues (.unknown j v :: t) = tsValues t from rfl]
      exact ih ts

theorem subChainInfo_getLastD (schain : List SubExt) (v0 : Nat) :
    subChainInfo v0 schain = (infoValues schain).getLastD v0 := by
  induction schain generalizing v0 with
  | nil => rfl
  | cons x t ih =>
    cases x with
    | info v =>
      show subChainInfo v t = (infoValues (.info v :: t)).getLastD v0
      rw [show infoValues (.info v :: t) = v :: infoValues t from rfl, List.getLastD_cons]
      exact ih v
    | unknown j v =>
      show subChainInfo v0 t = (infoValues (.unknown j v :: t)).getLastD v0
      rw [show infoValues (.unknown j v :: t) = infoValues t from rfl]
      exact ih v0

/-! ## The claims -/

/-- C1: Round-trip for every declaration body: for every value of the
eight-variant `DeclareBody` sum type (any identifier, wire expression with
or without a literal suffix, both `Mapping` values, default and
non-default `SubscriberInfo`/`QueryableInfo` extensions), decoding the
byte sequence produced by encoding it succeeds and returns a value equal
to the original, consuming the whole sequence. -/
theorem C1_declare_body_roundtrip (x : DeclareBody) :
    readDeclareBody (writeDeclareBody x) = some (x, []) :=
  readDeclareBody_write x

/-- C2: Encode-time flag invariant: the header byte produced by the
encoder has `Z` set iff at least one extension differs from its type's
default value, `N` set iff the wire expression carries a literal suffix,
and `M` set iff the mapping differs from the default — for
`DeclareSubscriber` and `DeclareQueryable`, and for the `Declare`
envelope's `Z` flag (its extensions being the non-default QoS value and
the present timestamp). -/
theorem C2_flag_invariant (x : DeclareSubscriber) (y : DeclareQueryable) (d : Declare) :
    (imsg.hasFlag (subscriberDHeader x) flag.Z = (x.ext_info != subscriber.ext.infoDefault) ∧
      imsg.hasFlag (subscriberDHeader x) flag.N = x.wire_expr.hasSuffix ∧
      imsg.hasFlag (subscriberDHeader x) flag.M = (x.mapping != Mapping.default)) ∧
    (imsg.hasFlag (queryableDHeader y) flag.Z = (y.ext_info != queryable.ext.infoDefault) ∧
      imsg.hasFlag (queryableDHeader y) flag.N = y.wire_expr.hasSuffix ∧
      imsg.hasFlag (queryableDHeader y) flag.M = (y.mapping != Mapping.default)) ∧
    imsg.hasFlag (declareHeader d) flag.Z =
      (d.ext_qos != declare.ext.qosDefault || d.ext_tstamp.isSome) :=
  ⟨⟨subscriberDHeader_Z x, subscriberDHeader_N x, subscriberDHeader_M x⟩,
    ⟨queryableDHeader_Z y, queryableDHeader_N y, queryableDHeader_M y⟩,
    declareHeader_Z d⟩

/-- C3: Header mismatch rejection: for every input buffer whose first
byte's message-id bits are not `D_SUBSCRIBER`, the `DeclareSubscriber`
decoder returns the format error (`none`) and never a misparsed value. -/
theorem C3_header_mismatch (b : Nat) (r : List Nat)
    (h : imsg.mid b ≠ declare.id.D_SUBSCRIBER) :
    readDeclareSubscriberMsg (b :: r) = none := by
  simp [readDeclareSubscriberMsg, readDeclareSubscriberH, h]

/-- C3 witness: the bytes of an encoded `DeclareQueryable` start with a
header whose message id is not `D_SUBSCRIBER`, and the subscriber decoder
rejects them. -/
theorem C3_header_mismatch_witness :
    writeDeclareQueryable ⟨1, ⟨0, []⟩, .sender, 5⟩ = 0xc4 :: [1, 0, 0x21, 5] ∧
    imsg.mid 0xc4 ≠ declare.id.D_SUBSCRIBER ∧
    readDeclareSubscriberMsg (0xc4 :: [1, 0, 0x21, 5]) = none :=
  ⟨by decide, by decide, C3_header_mismatch 0xc4 [1, 0, 0x21, 5] (by decide)⟩

/-- C7: Last-wins on duplicate extension kind: for every extension chain —
any length, any order, any interleaving with extensions of other
recognized kinds or unknown skippable ones, hence in particular every
chain containing two or more extensions of one recognized kind — decoding
yields, for each recognized kind, the value of its last occurrence in the
chain (its default, or `none` for the timestamp, when it never occurs),
never an accumulation of several values: shown for the `Declare`
envelope's QoS and Timestamp extensions and for `DeclareSubscriber`'s
SubscriberInfo extension. -/
theorem C7_duplicate_ext_last_wins (chain : List DeclExt) (schain : List SubExt)
    (b : DeclareBody) (i s : Nat) (rest rest2 : List Nat)
    (hne : chain ≠ []) (hwf : ∀ x ∈ chain, x.wf = true)
    (hne2 : schain ≠ []) (hwf2 : ∀ x ∈ schain, x.wf = true) :
    readDeclareH (id.DECLARE ||| flag.Z)
        (writeDeclExtChain chain ++ (writeDeclareBody b ++ rest)) =
      some (⟨b, (qosValues chain).getLastD declare.ext.qosDefault,
        ((tsValues chain).map some).getLastD none⟩, rest) ∧
    readDeclareSubscriberH (declare.id.D_SUBSCRIBER ||| flag.Z)
        (zintWrite i ++ (zintWrite s ++ (writeSubExtChain schain ++ rest2))) =
      some (⟨i, ⟨s, []⟩, Mapping.receiver,
        (infoValues schain).getLastD subscriber.ext.infoDefault⟩, rest2) := by
  constructor
  · rw [readDeclareH_chain chain b rest hne hwf, declChainQoS_getLastD,
      declChainTs_getLastD]
  · rw [readDeclareSubscriberH_chain schain i s rest2 hne2 hwf2, subChainInfo_getLastD]

/-- C7 witness: an envelope chain holding two QoS and two Timestamp
extensions interleaved with an unknown skippable one decodes to the later
values (QoS 2, timestamp 8), and a subscriber chain holding two info
extensions around an unknown one decodes to the later info value 2. -/
theorem C7_duplicate_ext_last_wins_witness :
    ([DeclExt.qos 1, DeclExt.unknown 5 9, DeclExt.tstamp 7, DeclExt.qos 2,
        DeclExt.tstamp 8] ≠ []) ∧
    (∀ x ∈ [DeclExt.qos 1, DeclExt.unknown 5 9, DeclExt.tstamp 7, DeclExt.qos 2,
        DeclExt.tstamp 8], x.wf = true) ∧
    ([SubExt.info 1, SubExt.unknown 4 3, SubExt.info 2] ≠ []) ∧
    (∀ x ∈ [SubExt.info 1, SubExt.unknown 4 3, SubExt.info 2], x.wf = true) ∧
    readDeclareH (id.DECLARE ||| flag.Z)
        (writeDeclExtChain [DeclExt.qos 1, DeclExt.unknown 5 9, DeclExt.tstamp 7,
          DeclExt.qos 2, DeclExt.tstamp 8] ++
          (writeDeclareBody (.UndeclareToken ⟨4⟩) ++ [])) =
      some (⟨.UndeclareToken ⟨4⟩, 2, some 8⟩, []) ∧
    readDeclareSubscriberH (declare.id.D_SUBSCRIBER ||| flag.Z)
        (zintWrite 0 ++ (zintWrite 0 ++
          (writeSubExtChain [SubExt.info 1, SubExt.unknown 4 3, SubExt.info 2] ++ []))) =
      some (⟨0, ⟨0, []⟩, Mapping.receiver, 2⟩, []) := by
  have h := C7_duplicate_ext_last_wins
    [DeclExt.qos 1, DeclExt.unknown 5 9, DeclExt.tstamp 7, DeclExt.qos 2, DeclExt.tstamp 8]
    [SubExt.info 1, SubExt.unknown 4 3, SubExt.info 2]
    (.UndeclareToken ⟨4⟩) 0 0 [] []
    (by decide) (by decide) (by decide) (by decide)
  have e1 : (qosValues [DeclExt.qos 1, DeclExt.unknown 5 9, DeclExt.tstamp 7,
      DeclExt.qos 2, DeclExt.tstamp 8]).getLastD declare.ext.qosDefault = 2 := by decide
  have e2 : ((tsValues [DeclExt.qos 1, DeclExt.unknown 5 9, DeclExt.tstamp 7,
      DeclExt.qos 2, DeclExt.tstamp 8]).map some).getLastD none = some 8 := by decide
  have e3 : (infoValues [SubExt.info 1, SubExt.unknown 4 3,
      SubExt.info 2]).getLastD subscriber.ext.infoDefault = 2 := by decide
  rw [e1, e2, e3] at h
  exact ⟨by decide, by decide, by decide, by decide, h.1, h.2⟩

/-- C8: Mandatory-extension rejection: during decode of a declaration
message, an extension of unknown kind whose own header marks it
mandatory-to-understand makes decoding fail (`none`) rather than being
silently skipped — for the `Declare` envelope chain, the
`DeclareSubscriber` chain, and the generic skip-all path. -/
theorem C8_mandatory_unknown_ext_fails (e i s f : Nat) (r r2 : List Nat)
    (hm : iext.isMandatory e = true)
    (hq : iext.eid e ≠ declare.ext.qosID)
    (ht : iext.eid e ≠ declare.ext.tstampID)
    (hs : iext.eid e ≠ subscriber.ext.infoID) :
    readDeclareH (id.DECLARE ||| flag.Z) (e :: r) = none ∧
    readDeclareSubscriberH (declare.id.D_SUBSCRIBER ||| flag.Z)
      (zintWrite i ++ (zintWrite s ++ (e :: r))) = none ∧
    extSkipAll (f + 1) (e :: r2) = none := by
  have hmid : (imsg.mid (id.DECLARE ||| flag.Z) != id.DECLARE) = false := by decide
  have hz : imsg.hasFlag (id.DECLARE ||| flag.Z) flag.Z = true := by decide
  have hmid2 : (imsg.mid (declare.id.D_SUBSCRIBER ||| flag.Z) !=
      declare.id.D_SUBSCRIBER) = false := by decide
  have hN : imsg.hasFlag (declare.id.D_SUBSCRIBER ||| flag.Z) flag.N = false := by decide
  have hZ2 : imsg.hasFlag (declare.id.D_SUBSCRIBER ||| flag.Z) flag.Z = true := by decide
  have hskip := extSkip_mandatory e r hm
  have hskip2 := extSkip_mandatory e r2 hm
  refine ⟨?_, ?_, ?_⟩
  · simp [readDeclareH, hmid, hz, readDeclExtLoop, hq, ht, hskip]
  · simp [readDeclareSubscriberH, hmid2, zint_rt, hN, wire_rt_noSuffix, hZ2,
      readSubExtLoop, hs, hskip]
  · simp [extSkipAll, hskip2]

/-- C8 witness: a concrete mandatory unit-shaped extension of unknown kind
is rejected on all three decode paths. -/
theorem C8_mandatory_unknown_ext_fails_witness :
    iext.isMandatory 0x15 = true ∧
    iext.eid 0x15 ≠ declare.ext.qosID ∧
    iext.eid 0x15 ≠ declare.ext.tstampID ∧
    iext.eid 0x15 ≠ subscriber.ext.infoID ∧
    (readDeclareH (id.DECLARE ||| flag.Z) (0x15 :: []) = none ∧
      readDeclareSubscriberH (declare.id.D_SUBSCRIBER ||| flag.Z)
        (zintWrite 0 ++ (zintWrite 0 ++ (0x15 :: []))) = none ∧
      extSkipAll (0 + 1) (0x15 :: []) = none) :=
  ⟨by decide, by decide, by decide, by decide,
    C8_mandatory_unknown_ext_fails 0x15 0 0 0 [] [] (by decide) (by decide) (by decide)
      (by decide)⟩

/-- C10: Every encoded `Undeclare*` message is the bare kind id (a header
with no flag bits set, in particular `Z` unset) followed only by the id
varint, so it never carries extensions and its decode never enters the
extension-skip path. -/
theorem C10_undeclare_minimal (a : UndeclareKeyExpr) (b : UndeclareSubscriber)
    (c : UndeclareQueryable) (d : UndeclareToken) :
    (writeUndeclareKeyExpr a = declare.id.U_KEYEXPR :: zintWrite a.id ∧
      imsg.flags declare.id.U_KEYEXPR = 0 ∧
      imsg.hasFlag declare.id.U_KEYEXPR flag.Z = false) ∧
    (writeUndeclareSubscriber b = declare.id.U_SUBSCRIBER :: zintWrite b.id ∧
      imsg.flags declare.id.U_SUBSCRIBER = 0 ∧
      imsg.hasFlag declare.id.U_SUBSCRIBER flag.Z = false) ∧
    (writeUndeclareQueryable c = declare.id.U_QUERYABLE :: zintWrite c.id ∧
      imsg.flags declare.id.U_QUERYABLE = 0 ∧
      imsg.hasFlag declare.id.U_QUERYABLE flag.Z = false) ∧
    (writeUndeclareToken d = declare.id.U_TOKEN :: zintWrite d.id ∧
      imsg.flags declare.id.U_TOKEN = 0 ∧
      imsg.hasFlag declare.id.U_TOKEN flag.Z = false) :=
  ⟨⟨rfl, by decide, by decide⟩, ⟨rfl, by decide, by decide⟩,
    ⟨rfl, by decide, by decide⟩, ⟨rfl, by decide, by decide⟩⟩

/-- C4: Handshake version gate: an `InitSyn` whose version differs from
the locally configured version makes the accept-side `recv` return a
rejection tagged with close reason `INVALID`, producing no `Output`. -/
theorem C4_version_gate (msg : TransportMsg) (i : InitSyn) (manager : TransportConfig)
    (hbody : msg.body = .InitSyn i) (hv : i.version ≠ manager.version) :
    recv (.ok [msg]) manager = .error (some close.reason.INVALID) := by
  simp [recv, hbody, hv]

/-- C4 witness: a concrete `InitSyn` with version 1 against a manager
configured for version 2 is rejected with `INVALID`. -/
theorem C4_version_gate_witness :
    (⟨.InitSyn ⟨1, .router, 7, 3, 9, none⟩⟩ : TransportMsg).body =
      TransportBody.InitSyn ⟨1, .router, 7, 3, 9, none⟩ ∧
    (⟨1, .router, 7, 3, 9, none⟩ : InitSyn).version ≠
      (⟨2⟩ : TransportConfig).version ∧
    recv (.ok [⟨.InitSyn ⟨1, .router, 7, 3, 9, none⟩⟩]) ⟨2⟩ =
      .error (some close.reason.INVALID) :=
  ⟨rfl, by decide,
    C4_version_gate ⟨.InitSyn ⟨1, .router, 7, 3, 9, none⟩⟩ ⟨1, .router, 7, 3, 9, none⟩ ⟨2⟩
      rfl (by decide)⟩

/-- C5: Handshake message-count rule: when the link read yields a number
of messages other than exactly one, `recv` fails with close reason
`INVALID` regardless of the message bodies (it inspects none of them). -/
theorem C5_single_message_rule (messages : List TransportMsg) (manager : TransportConfig)
    (h : messages.length ≠ 1) :
    recv (.ok messages) manager = .error (some close.reason.INVALID) := by
  match messages with
  | [] => rfl
  | [m] => exact absurd rfl h
  | a :: b :: t => rfl

/-- C5 witness: a read of two messages — even if the first is a perfectly
valid `InitSyn` — is rejected with `INVALID`. -/
theorem C5_single_message_rule_witness :
    ([⟨.InitSyn ⟨1, .router, 7, 3, 9, none⟩⟩, ⟨.OtherBody⟩] : List TransportMsg).length ≠ 1 ∧
    recv (.ok [⟨.InitSyn ⟨1, .router, 7, 3, 9, none⟩⟩, ⟨.OtherBody⟩]) ⟨1⟩ =
      .error (some close.reason.INVALID) :=
  ⟨by decide, C5_single_message_rule [⟨.InitSyn ⟨1, .router, 7, 3, 9, none⟩⟩, ⟨.OtherBody⟩]
    ⟨1⟩ (by decide)⟩

/-- C6: QoS propagation and `Output` construction: whenever `recv`
succeeds, the link read was a single `InitSyn` message and the produced
`Output` copies its `whatami`, `zid`, `resolution` and `batch_size`
fields, with `is_qos` true iff the `InitSyn`'s QoS extension field is
present. -/
theorem C6_output_fields (linkRead : Except Unit (List TransportMsg))
    (manager : TransportConfig) (out : Output)
    (h : recv linkRead manager = .ok out) :
    ∃ msg i, linkRead = .ok [msg] ∧ msg.body = .InitSyn i ∧
      out.whatami = i.whatami ∧ out.zid = i.zid ∧ out.resolution = i.resolution ∧
      out.batch_size = i.batch_size ∧ (out.is_qos = true ↔ i.qos.isSome = true) := by
  match linkRead with
  | .error u => simp [recv] at h
  | .ok messages =>
    match messages with
    | [] => simp [recv] at h
    | [msg] =>
      match hb : msg.body with
      | .InitSyn i =>
        simp only [recv, hb] at h
        by_cases hv : i.version != manager.version
        · rw [if_pos hv] at h; cases h
        · rw [if_neg hv] at h
          injection h with h1
          subst h1
          exact ⟨msg, i, rfl, hb, rfl, rfl, rfl, rfl, Iff.rfl⟩
      | .OtherBody => simp [recv, hb] at h
    | a :: b :: t => simp [recv] at h

/-- C6 witness: a single `InitSyn` with the QoS extension present and a
matching version yields this `Output` with `is_qos = true` and copied
fields. -/
theorem C6_output_fields_witness :
    ∃ msg i, (Except.ok [⟨.InitSyn ⟨5, .client, 11, 4, 6, some 0⟩⟩] :
        Except Unit (List TransportMsg)) = .ok [msg] ∧
      msg.body = .InitSyn i ∧
      (⟨.client, 11, 4, 6, true⟩ : Output).whatami = i.whatami ∧
      (⟨.client, 11, 4, 6, true⟩ : Output).zid = i.zid ∧
      (⟨.client, 11, 4, 6, true⟩ : Output).resolution = i.resolution ∧
      (⟨.client, 11, 4, 6, true⟩ : Output).batch_size = i.batch_size ∧
      ((⟨.client, 11, 4, 6, true⟩ : Output).is_qos = true ↔ i.qos.isSome = true) :=
  C6_output_fields (.ok [⟨.InitSyn ⟨5, .client, 11, 4, 6, some 0⟩⟩]) ⟨5⟩
    ⟨.client, 11, 4, 6, true⟩ rfl

/-- C9: Every error returned by the accept-side `recv` — link-read
failure, message count other than one, non-`InitSyn` body, version
mismatch — carries the close reason `Some(INVALID)`; no failure path
returns a different or absent reason. -/
theorem C9_all_errors_invalid (linkRead : Except Unit (List TransportMsg))
    (manager : TransportConfig) (e : Option Nat)
    (h : recv linkRead manager = .error e) : e = some close.reason.INVALID := by
  match linkRead with
  | .error u =>
    simp only [recv] at h
    injection h with h1
    exact h1.symm
  | .ok messages =>
    match messages with
    | [] =>
      simp only [recv] at h
      injection h with h1
      exact h1.symm
    | [msg] =>
      match hb : msg.body with
      | .InitSyn i =>
        simp only [recv, hb] at h
        by_cases hv : i.version != manager.version
        · rw [if_pos hv] at h
          injection h with h1
          exact h1.symm
        · rw [if_neg hv] at h
          cases h
      | .OtherBody =>
        simp only [recv, hb] at h
        injection h with h1
        exact h1.symm
    | a :: b :: t =>
      simp only [recv] at h
      injection h with h1
      exact h1.symm

/-- C9 witness: a failed link read is surfaced with reason `INVALID`, and
the theorem confirms every error equals `Some(INVALID)`. -/
theorem C9_all_errors_invalid_witness :
    recv (.error ()) ⟨0⟩ = .error (some close.reason.INVALID) ∧
    (some close.reason.INVALID : Option Nat) = some close.reason.INVALID :=
  ⟨rfl, C9_all_errors_invalid (.error ()) ⟨0⟩ (some close.reason.INVALID) rfl⟩

end Zenoh
